import Mathlib

/-!
Shallow embedding of the LinguaLoop content-generation pipeline
(topic generation and test generation services) in Lean 4, with
theorems checking the natural-language specification against the code.

Sources embedded (paths relative to the repository root):
- src/services/test_generation/agents/question_validator.py
- src/services/test_generation/agents/question_generator.py (answer recovery)
- src/services/test_generation/database_client.py (queue status updates)
- src/services/test_generation/orchestrator.py (_process_queue_item / run)
- src/services/topic_generation/agents/gatekeeper.py
- src/services/topic_generation/agents/archivist.py
- src/services/topic_generation/orchestrator.py (run loop)

Python strings are modelled as Lean `String` (a list of characters);
`str.strip`, `str.lower`, `str.split()` and substring tests are translated
at the character-list level.  Python floats that only ever hold exact
small rationals (similarity scores, the 0.65 Jaccard threshold) are
modelled as `Rat` / scaled-`Nat` comparisons.  Fallible calls are
modelled with `Except`.
-/

namespace LinguaLoop

/-! ## Character-level string helpers (Python `str` semantics) -/

/-- Python `str.strip()` on a character list: drop whitespace from both ends. -/
def stripChars (cs : List Char) : List Char :=
  (((cs.dropWhile Char.isWhitespace).reverse.dropWhile Char.isWhitespace)).reverse

/-- Python `str.strip()`. -/
def pyStrip (s : String) : String := ⟨stripChars s.data⟩

/-- Python `str.lower()` (modelled per character). -/
def pyLower (s : String) : String := ⟨s.data.map Char.toLower⟩

/-- Python `len(s)` (number of characters). -/
def pyLen (s : String) : Nat := s.data.length

/-- Python `s[:n]` (first `n` characters). -/
def pyTake (n : Nat) (s : String) : String := ⟨s.data.take n⟩

/-- Whether `needle` is a prefix of `hay` (character lists). -/
def prefixOfL : List Char → List Char → Bool
  | [], _ => true
  | _ :: _, [] => false
  | a :: as, b :: bs => a == b && prefixOfL as bs

/-- Python `needle in hay` substring test, on character lists. -/
def containsSubL (needle hay : List Char) : Bool :=
  (List.range (hay.length + 1)).any fun i => prefixOfL needle (hay.drop i)

/-- Python `needle in hay` substring test on strings. -/
def pyContains (hay needle : String) : Bool := containsSubL needle.data hay.data

/-- Python `s.startswith(pre)`. -/
def pyStartsWith (s pre : String) : Bool := prefixOfL pre.data s.data

/-- Python `str.split()` with no separator (split on runs of whitespace,
dropping empty pieces), with the current word accumulated in reverse. -/
def pyWordsAux : List Char → List Char → List (List Char)
  | [], acc => if acc.isEmpty then [] else [acc.reverse]
  | c :: rest, acc =>
    if c.isWhitespace then
      if acc.isEmpty then pyWordsAux rest []
      else acc.reverse :: pyWordsAux rest []
    else
      pyWordsAux rest (c :: acc)

/-- Python `str.split()` with no separator. -/
def pyWords (cs : List Char) : List (List Char) := pyWordsAux cs []

/-- Python `', '.join(xs)`. -/
def joinComma : List String → String
  | [] => ""
  | [s] => s
  | s :: rest => s ++ ", " ++ joinComma rest

/-! ## Question validator (question_validator.py)

A parsed question dict; the three keys the validator looks at are
modelled as optional fields (a missing key is `none`). -/

structure QDict where
  question : Option String
  choices : Option (List String)
  answer : Option String
  deriving Repr, DecidableEq

/-- Token set of a question text: `set(text.lower().split())`,
as a duplicate-free list of character lists. -/
def tokenSet (s : String) : List (List Char) :=
  (pyWords (s.data.map Char.toLower)).dedup

/-- Number of elements of the set intersection `A ∩ B` (`A` duplicate-free). -/
def interCard (a b : List (List Char)) : Nat :=
  (a.filter (fun w => w ∈ b)).length

/-- Number of elements of the set union `A ∪ B`. -/
def unionCard (a b : List (List Char)) : Nat :=
  ((a ++ b).dedup).length

/-- The spec's notion for C5: the Jaccard similarity of the lower-cased
whitespace-token sets of the two texts is at least 0.65
(`|A ∩ B| / |A ∪ B| ≥ 65/100`, compared without division). -/
def jaccardGE65 (a b : String) : Bool :=
  let nw := tokenSet a
  let pw := tokenSet b
  65 * unionCard nw pw ≤ 100 * interCard nw pw

/-- `QuestionValidator._check_overlap`, inner loop over the previously
accepted question texts (threshold 0.65, the default, never overridden).
Raises (returns `.error`) on the first previous question whose Jaccard
similarity with the new question is at least the threshold.
The Python float comparison `len(inter)/len(union) >= 0.65` is exact on
these rationals and is modelled as `65 * union ≤ 100 * inter`.
The Python `.1%`-formatted similarity in the message is abstracted away. -/
def checkOverlapGo (nw : List (List Char)) : List String → Except String Unit
  | [] => .ok ()
  | prev :: rest =>
    let pw := tokenSet prev
    if 0 < unionCard nw pw ∧ 65 * unionCard nw pw ≤ 100 * interCard nw pw then
      .error "Question too similar to existing question"
    else
      checkOverlapGo nw rest

/-- `QuestionValidator._check_overlap`. -/
def check_overlap (newQuestion : String) (previousQuestions : List String) :
    Except String Unit :=
  checkOverlapGo (tokenSet newQuestion) previousQuestions

/-- Loop of `_validate_structure` checking every choice is a non-empty string
(`if not isinstance(choice, str) or not choice.strip()`). -/
def checkChoicesNonempty : List String → Nat → Except String Unit
  | [], _ => .ok ()
  | c :: rest, i =>
    if pyStrip c = "" then
      .error ("Choice " ++ toString (i + 1) ++ " is empty or invalid")
    else
      checkChoicesNonempty rest (i + 1)

/-- `QuestionValidator._validate_structure`.  Checks run in source order:
required fields, question-text length, choices list length, non-empty
choices, non-empty answer, answer membership (all after `.strip()`). -/
def validate_structure (q : QDict) : Except String Unit :=
  match q.question with
  | none => .error "Missing required field: question"
  | some qText =>
    match q.choices with
    | none => .error "Missing required field: choices"
    | some choices =>
      match q.answer with
      | none => .error "Missing required field: answer"
      | some answer =>
        if pyLen (pyStrip qText) < 5 then
          .error "Question text too short or invalid"
        else if choices.length ≠ 4 then
          .error ("Expected 4 choices, got " ++ toString choices.length)
        else
          match checkChoicesNonempty choices 0 with
          | .error e => .error e
          | .ok _ =>
            if pyStrip answer = "" then
              .error "Answer is empty or invalid"
            else if pyStrip answer ∈ choices.map pyStrip then
              .ok ()
            else
              .error ("Answer '" ++ pyTake 30 (pyStrip answer) ++
                "' not found in choices")

/-- `QuestionValidator._validate_content`.  Only the duplicate-choice check
can raise; the remaining content checks merely log.
`unique_choices = set(c.strip().lower() for c in choices)`. -/
def validate_content (q : QDict) : Except String Unit :=
  let choices := q.choices.getD []
  if ((choices.map (fun c => pyLower (pyStrip c))).dedup).length < 4 then
    .error "Duplicate choices detected"
  else
    .ok ()

/-- `QuestionValidator.validate_question` as its `try` body: structure,
content, then (only when the previous list is non-empty) overlap.
The overlap call reads `question['question']`, which is present whenever
the structure check has passed, so `getD ""` is only evaluated at the
dictionary's actual value. -/
def validateQuestionE (q : QDict) (prose : String) (previousQuestions : List String) :
    Except String Unit := do
  validate_structure q
  validate_content q
  if previousQuestions.isEmpty then
    pure ()
  else
    check_overlap (q.question.getD "") previousQuestions

/-- `QuestionValidator.validate_question`: `(is_valid, error_message)`.
The `prose` argument is threaded through as in the source but is not
consulted by any check. -/
def validate_question (q : QDict) (prose : String) (previousQuestions : List String) :
    Bool × Option String :=
  match validateQuestionE q prose previousQuestions with
  | .ok _ => (true, none)
  | .error e => (false, some e)

/-- `QuestionValidator.validate_all_questions`, main loop: accumulates
accepted questions, their texts (`q.get('question', '')`) and the error
messages `Qi+1: ...`. -/
def validateAllGo (prose : String) : List QDict → List String → Nat → List QDict × List String
  | [], _, _ => ([], [])
  | q :: rest, texts, i =>
    let r := validate_question q prose texts
    if r.1 then
      let t := validateAllGo prose rest (texts ++ [q.question.getD ""]) (i + 1)
      (q :: t.1, t.2)
    else
      let t := validateAllGo prose rest texts (i + 1)
      (t.1, ("Q" ++ toString (i + 1) ++ ": " ++ r.2.getD "") :: t.2)

/-- `QuestionValidator.validate_all_questions`:
`(valid_questions, error_messages)`. -/
def validate_all_questions (questions : List QDict) (prose : String) :
    List QDict × List String :=
  validateAllGo prose questions [] 0

/-! ## Question generator answer recovery
(question_generator.py, `_parse_question_response`, lines 447-481)

The tail of `_parse_question_response` after the JSON has been decoded and
`Options` validated as a list of exactly 4 items: strip the answer and the
options, and if the stripped answer is not among the stripped options,
recover it (letter index, then substring match, then first option).
Returns the final `(data['Answer'], data['Options'])` pair. -/

/-- The substring-match predicate of the recovery loop:
`answer.lower() in opt.lower() or opt.lower() in answer.lower()`. -/
def answerMatches (answer opt : String) : Bool :=
  pyContains (pyLower opt) (pyLower answer) || pyContains (pyLower answer) (pyLower opt)

/-- Answer recovery tail of `_parse_question_response`.
`data['Answer']` is left untouched when the stripped answer is already
among the stripped options; `data['Options']` is always replaced by the
stripped options. -/
def recover_answer (answerRaw : String) (optionsRaw : List String) :
    String × List String :=
  let answer := pyStrip answerRaw
  let options := optionsRaw.map pyStrip
  if answer ∈ options then
    (answerRaw, options)
  else if answer = "A" ∨ answer = "B" ∨ answer = "C" ∨ answer = "D" then
    let idx := (answer.data.headD 'A').toNat - ('A').toNat
    if idx < 4 then (options.getD idx "", options) else (answerRaw, options)
  else
    match options.find? (fun opt => answerMatches answer opt) with
    | some opt => (opt, options)
    | none => (options.getD 0 "", options)

/-! ## Cultural gatekeeper (gatekeeper.py)

The outcome of one chat-completion call is modelled as
`Except Unit String`: `.error` when the provider raised, `.ok response`
otherwise. -/

structure Language where
  id : Nat
  languageCode : String
  nativeName : String
  deriving Repr, DecidableEq

/-- `GatekeeperAgent._parse_decision`. -/
def parse_decision (response : String) : Bool :=
  let responseLower := pyStrip (pyLower response)
  if pyStartsWith responseLower "yes" then true
  else if pyStartsWith responseLower "no" then false
  else if pyContains responseLower "yes" && !(pyContains responseLower "no") then true
  else false

/-- `GatekeeperAgent.validate_for_language`: the decision together with the
increment of `self.rejection_count` (1 on a rejection or on any exception
from the chat-completion call, 0 on an approval). -/
def validate_for_language (result : Except Unit String) : Bool × Nat :=
  match result with
  | .error _ => (false, 1)
  | .ok response =>
    let decision := parse_decision response
    (decision, if decision then 0 else 1)

/-- Loop of `validate_for_all_languages`: languages paired with their call
outcomes, consecutive-rejection counter; returns
`(approved, rejection_count increment, number of validate_for_language calls)`. -/
def gkLoop (threshold : Nat) :
    List (Language × Except Unit String) → Nat → List Language × Nat × Nat
  | [], _ => ([], 0, 0)
  | (lang, result) :: rest, consecutiveRejections =>
    if threshold ≤ consecutiveRejections then ([], 0, 0)
    else
      let d := validate_for_language result
      if d.1 then
        let t := gkLoop threshold rest 0
        (lang :: t.1, t.2.1 + d.2, t.2.2 + 1)
      else
        let t := gkLoop threshold rest (consecutiveRejections + 1)
        (t.1, t.2.1 + d.2, t.2.2 + 1)

/-- `GatekeeperAgent.validate_for_all_languages`. -/
def validate_for_all_languages (langs : List (Language × Except Unit String))
    (shortCircuitThreshold : Nat) : List Language × Nat × Nat :=
  gkLoop shortCircuitThreshold langs 0

/-- Number of approved languages of a gatekeeper run. -/
def gkApproved (langs : List (Language × Except Unit String)) (thr : Nat) : List Language :=
  (validate_for_all_languages langs thr).1

/-- Number of `validate_for_language` calls (one chat-completion attempt each)
of a gatekeeper run. -/
def gkCalls (langs : List (Language × Except Unit String)) (thr : Nat) : Nat :=
  (validate_for_all_languages langs thr).2.2

/-- Replace a provider exception by the response `"no"`, keeping successful
responses; used to state that an exception is handled exactly as a rejection. -/
def errToNo (p : Language × Except Unit String) : Language × Except Unit String :=
  match p.2 with
  | .error _ => (p.1, .ok "no")
  | .ok s => (p.1, .ok s)

/-! ## Test-generation queue operations (test_generation/database_client.py)

A `production_queue` row.  The status is carried as its status code
(`dim_status` maps codes to opaque integer ids one-to-one; the lookup
`_get_status_id` is abstracted by storing the code itself).
`processedAt` holds an abstract timestamp. -/

structure QueueRow where
  id : Nat
  topicId : Nat
  languageId : Nat
  status : String
  testsGenerated : Nat
  processedAt : Option Nat
  errorLog : Option String
  deriving Repr, DecidableEq

/-- `TestDatabaseClient.update_queue_item_status`: updates the row selected
by its id.  The update data always contains the new status, the
tests-generated count (default 0) and a fresh `processed_at`; `error_log`
is written only when a non-empty message is supplied (`if error_log:`).
The filter of the underlying query is `eq('id', ...)` only, so the update
applies whatever the row's current status is. -/
def update_queue_item_status (row : QueueRow) (statusCode : String)
    (testsGenerated : Nat := 0) (errorLog : Option String := none)
    (now : Nat := 0) : QueueRow :=
  { row with
    status := statusCode
    testsGenerated := testsGenerated
    processedAt := some now
    errorLog :=
      match errorLog with
      | some e => if e = "" then row.errorLog else some e
      | none => row.errorLog }

/-- `TestDatabaseClient.mark_queue_processing`. -/
def mark_queue_processing (row : QueueRow) (now : Nat) : QueueRow :=
  update_queue_item_status row "processing" 0 none now

/-- `TestDatabaseClient.mark_queue_completed`. -/
def mark_queue_completed (row : QueueRow) (testsGenerated : Nat) (now : Nat) : QueueRow :=
  update_queue_item_status row "active" testsGenerated none now

/-- `TestDatabaseClient.mark_queue_failed`. -/
def mark_queue_failed (row : QueueRow) (errorMessage : String) (now : Nat) : QueueRow :=
  update_queue_item_status row "rejected" 0 (some errorMessage) now

/-! ## Test orchestrator, per queue item
(test_generation/orchestrator.py, `_process_queue_item` plus the handler
in `run` that calls `mark_queue_failed`).

Each target difficulty's `_generate_test` outcome is an
`Except String Bool` (`.error` when it raised; the caught exception lets
the loop continue with the other difficulties). -/

structure TopicRecord where
  id : Nat
  categoryId : Nat
  conceptEnglish : String
  deriving Repr, DecidableEq

/-- The per-difficulty loop of `_process_queue_item`: count the successful
difficulties, ignoring raised exceptions. -/
def countSuccesses : List (Except String Bool) → Nat
  | [] => 0
  | .ok true :: rest => countSuccesses rest + 1
  | .ok false :: rest => countSuccesses rest
  | .error _ :: rest => countSuccesses rest

/-- `_process_queue_item` together with the surrounding handler of `run`:
mark processing (unless dry run), look up the topic and the language
config (an absent one raises, which `run` turns into `mark_queue_failed`),
run every target difficulty, then `mark_queue_completed` with the success
count.  Returns the queue row as the run leaves it. -/
def runQueueItem (dryRun : Bool) (row : QueueRow) (topic : Option TopicRecord)
    (langConfig : Option Language) (difficultyResults : List (Except String Bool))
    (t1 t2 : Nat) : QueueRow :=
  let r1 := if dryRun then row else mark_queue_processing row t1
  match topic with
  | none =>
    if dryRun then r1
    else mark_queue_failed r1 ("Topic not found: " ++ toString row.topicId) t2
  | some _ =>
    match langConfig with
    | none =>
      if dryRun then r1
      else mark_queue_failed r1 ("Language not found: " ++ toString row.languageId) t2
    | some _ =>
      let testsGenerated := countSuccesses difficultyResults
      if dryRun then r1 else mark_queue_completed r1 testsGenerated t2

/-! ## Novelty archivist (archivist.py) and topic orchestrator
(topic_generation/orchestrator.py)

External services are modelled as functions supplied by a `TopicEnv`:
the embedding provider (`embed_single`), the category-scoped similarity
search (`find_similar_topics`), the gatekeeper chat-completion outcome
per (candidate, language), and the database-generated topic ids (by
insertion order).  Embedding vectors are lists of rationals. -/

structure Lens where
  id : Nat
  lensCode : String
  displayName : String
  deriving Repr, DecidableEq

structure TopicCandidate where
  concept : String
  lensCode : String
  keywords : List String
  deriving Repr, DecidableEq

structure Category where
  id : Nat
  name : String
  deriving Repr, DecidableEq

/-- One row returned by the `match_topics` similarity search. -/
structure SimTopic where
  conceptEnglish : String
  similarity : Rat
  deriving Repr, DecidableEq

structure TopicEnv where
  languages : List Language
  lenses : List Lens
  category : Option Category
  explorerTemplate : Option String
  gatekeeperTemplate : Option String
  candidates : List TopicCandidate
  embedOf : String → List Rat
  matchesOf : Nat → List Rat → Rat → List SimTopic
  gkResponse : TopicCandidate → Language → Except Unit String
  newTopicId : Nat → Nat

structure RunCfg where
  dryRun : Bool
  dailyTopicQuota : Nat
  similarityThreshold : Rat
  gkThreshold : Nat
  deriving Repr, DecidableEq

/-- Rendering of the similarity in the rejection reason (the Python `.2%`
float formatting is abstracted to an exact rendering of the rational). -/
def fmtPercent (q : Rat) : String := toString (q * 100) ++ "%"

/-- The rejection reason built by `check_novelty`, naming the closest match
and its similarity score. -/
def rejection_reason (mostSimilar : SimTopic) : String :=
  "Too similar to existing topic (similarity: " ++ fmtPercent mostSimilar.similarity ++
    "): '" ++ pyTake 50 mostSimilar.conceptEnglish ++ "...'"

/-- `ArchivistAgent.construct_semantic_signature`. -/
def construct_semantic_signature (categoryName concept : String) (lens : Lens)
    (keywords : List String) : String :=
  let kwStr := if keywords.isEmpty then "" else joinComma (keywords.take 5)
  let signature := categoryName ++ ": " ++ concept ++ " [" ++ lens.displayName ++ "]"
  if kwStr ≠ "" then signature ++ " (" ++ kwStr ++ ")" else signature

/-- `ArchivistAgent.check_novelty`:
`(is_novel, rejection_reason, embedding)`.  An empty embedding result is a
failure; otherwise the category-scoped similarity search decides. -/
def check_novelty (env : TopicEnv) (categoryId : Nat) (semanticSignature : String)
    (threshold : Rat) : Bool × Option String × List Rat :=
  let embedding := env.embedOf semanticSignature
  if embedding.isEmpty then
    (false, some "Embedding generation failed", [])
  else
    match env.matchesOf categoryId embedding threshold with
    | [] => (true, none, embedding)
    | mostSimilar :: _ => (false, some (rejection_reason mostSimilar), embedding)

/-- The orchestrator's `lens_map.get(candidate.lens_code.lower())`: the
dict comprehension keeps the last lens for a (lower-cased) code. -/
def find_lens (lenses : List Lens) (code : String) : Option Lens :=
  lenses.reverse.find? (fun l => pyLower l.lensCode == pyLower code)

/-- Database and provider calls an orchestrator run performs, in order.
`deleteTopic` is the (nonexistent) topic deletion: the database client
exposes no such operation and no run ever emits it. -/
inductive DbEvent
  | readLanguages
  | readLenses
  | readCategory
  | readPrompt (taskName : String)
  | llmExplorer
  | embedCall (signature : String)
  | searchSimilar (categoryId : Nat)
  | llmGatekeeper (languageId : Nat)
  | insertTopic (categoryId : Nat) (concept : String) (lensId : Nat)
      (embedding : List Rat) (signature : String)
  | insertQueueBatch (items : List (Nat × Nat))
  | updateCategoryUsage (categoryId : Nat)
  | incrementCategoryTopics (categoryId : Nat) (count : Nat)
  | insertRunMetrics
  | deleteTopic (topicId : Nat)
  deriving Repr, DecidableEq

/-- Whether an event writes to the database. -/
def is_mutation : DbEvent → Bool
  | .insertTopic _ _ _ _ _ => true
  | .insertQueueBatch _ => true
  | .updateCategoryUsage _ => true
  | .incrementCategoryTopics _ _ => true
  | .insertRunMetrics => true
  | .deleteTopic _ => true
  | _ => false

/-- The mutating calls named by the spec for a topic-orchestrator run:
topic insert, queue batch insert, category last-used/counter update,
run-metrics insert. -/
def is_spec_mutation_kind : DbEvent → Bool
  | .insertTopic _ _ _ _ _ => true
  | .insertQueueBatch _ => true
  | .updateCategoryUsage _ => true
  | .incrementCategoryTopics _ _ => true
  | .insertRunMetrics => true
  | _ => false

/-- The provider/database events `check_novelty` performs: the embedding
call, then the similarity search unless the embedding came back empty. -/
def noveltyEventsOf (env : TopicEnv) (categoryId : Nat) (sig : String) : List DbEvent :=
  if (env.embedOf sig).isEmpty then [DbEvent.embedCall sig]
  else [DbEvent.embedCall sig, DbEvent.searchSimilar categoryId]

/-- State of the candidate loop of `TopicGenerationOrchestrator.run`:
`approved_count`, the pending `queue_items`, the two rejection metrics,
the number of topics inserted so far (driving the database-generated ids)
and the events emitted so far. -/
structure RunState where
  approvedCount : Nat
  queueItems : List (Nat × Nat)
  rejectedSimilarity : Nat
  rejectedGatekeeper : Nat
  nextTopicIdx : Nat
  events : List DbEvent
  deriving Repr, DecidableEq

def initState : RunState := ⟨0, [], 0, 0, 0, []⟩

/-- The pairs fed to the gatekeeper: each active language with the outcome
of its chat-completion call. -/
def gatekeeperInput (env : TopicEnv) (c : TopicCandidate) :
    List (Language × Except Unit String) :=
  env.languages.map (fun l => (l, env.gkResponse c l))

/-- One iteration of the candidate loop of
`TopicGenerationOrchestrator.run` (steps 5a-5c): quota check, lens lookup,
novelty check (embedding call, then similarity search unless embedding
failed), then — for a novel candidate — topic insertion (skipped on dry
run, where the placeholder id 0 stands for the zero UUID) followed by the
gatekeeper sweep and queue fan-out.  The gatekeeper emits one
chat-completion event per language actually evaluated before the
short-circuit.  `rejectedGatekeeper` is updated as `_run_gatekeeper`
computes it. -/
def processCandidate (cfg : RunCfg) (env : TopicEnv) (cat : Category)
    (s : RunState) (c : TopicCandidate) : RunState :=
  if cfg.dailyTopicQuota ≤ s.approvedCount then s
  else
    match find_lens env.lenses c.lensCode with
    | none => s
    | some lens =>
      let signature := construct_semantic_signature cat.name c.concept lens c.keywords
      let novelty := check_novelty env cat.id signature cfg.similarityThreshold
      let noveltyEvents := noveltyEventsOf env cat.id signature
      if !novelty.1 then
        { s with
          rejectedSimilarity := s.rejectedSimilarity + 1
          events := s.events ++ noveltyEvents }
      else
        let gkInput := gatekeeperInput env c
        let res := validate_for_all_languages gkInput cfg.gkThreshold
        let approved := res.1
        let calls := res.2.2
        let gkEvents := (env.languages.take calls).map (fun l => DbEvent.llmGatekeeper l.id)
        let topicId := if cfg.dryRun then 0 else env.newTopicId s.nextTopicIdx
        let insertEvents :=
          if cfg.dryRun then ([] : List DbEvent)
          else [DbEvent.insertTopic cat.id c.concept lens.id novelty.2.2 signature]
        let checked := min env.languages.length (approved.length + cfg.gkThreshold)
        let s1 :=
          { s with
            events := s.events ++ noveltyEvents ++ insertEvents ++ gkEvents
            nextTopicIdx := if cfg.dryRun then s.nextTopicIdx else s.nextTopicIdx + 1
            rejectedGatekeeper := s.rejectedGatekeeper + (checked - approved.length) }
        if approved.isEmpty then s1
        else
          { s1 with
            approvedCount := s1.approvedCount + 1
            queueItems := s1.queueItems ++ approved.map (fun l => (topicId, l.id)) }

/-- `TopicGenerationOrchestrator.run`: loads dimension data, selects the
category, fetches both prompt templates, runs the explorer, iterates the
candidates, then batch-inserts the queue, updates the category and
persists the run metrics (`_finalize`; skipped on dry run).  The raised
configuration errors (no languages/lenses/category/templates) all land in
the `except` handler, which still runs `_finalize`.  Returns the final
loop state (when the loop was reached) and the full event trace. -/
def run_topic_generation (cfg : RunCfg) (env : TopicEnv) :
    Option RunState × List DbEvent :=
  let e0 := [DbEvent.readLanguages, DbEvent.readLenses]
  let fin := if cfg.dryRun then ([] : List DbEvent) else [DbEvent.insertRunMetrics]
  if env.languages.isEmpty then (none, e0 ++ fin)
  else if env.lenses.isEmpty then (none, e0 ++ fin)
  else
    let e1 := e0 ++ [DbEvent.readCategory]
    match env.category with
    | none => (none, e1 ++ fin)
    | some cat =>
      let e2 := e1 ++ [DbEvent.readPrompt "explorer_ideation",
        DbEvent.readPrompt "gatekeeper_check"]
      match env.explorerTemplate with
      | none => (none, e2 ++ fin)
      | some _ =>
        match env.gatekeeperTemplate with
        | none => (none, e2 ++ fin)
        | some _ =>
          let e3 := e2 ++ [DbEvent.llmExplorer]
          if env.candidates.isEmpty then (none, e3 ++ fin)
          else
            let s := env.candidates.foldl (processCandidate cfg env cat) initState
            let queueEvents :=
              if !s.queueItems.isEmpty && !cfg.dryRun then
                [DbEvent.insertQueueBatch s.queueItems]
              else []
            let catEvents :=
              if cfg.dryRun then ([] : List DbEvent)
              else
                [DbEvent.updateCategoryUsage cat.id] ++
                  (if 0 < s.approvedCount then
                    [DbEvent.incrementCategoryTopics cat.id s.approvedCount]
                  else [])
            (some s, e3 ++ s.events ++ queueEvents ++ catEvents ++ fin)

/-- Number of topic-insertion events in a trace. -/
def countInsertTopics (events : List DbEvent) : Nat :=
  (events.filter (fun e =>
    match e with
    | .insertTopic _ _ _ _ _ => true
    | _ => false)).length

/-! ## Helper lemmas -/

theorem string_append_ne_empty (s t : String) (h : s.data ≠ []) : s ++ t ≠ "" := by
  intro he
  apply h
  have hd : (s ++ t).data = ("" : String).data := by rw [he]
  rw [String.data_append] at hd
  exact (List.append_eq_nil.mp hd).1

/-! ## Claim C1 (test orchestrator queue completion) -/

/-- Claim C1, counterexample: a queue item whose every target difficulty
fails (here three raised `_generate_test` exceptions) is still marked
`active` with a tests-generated count of 0 — `_process_queue_item` calls
`mark_queue_completed` unconditionally, so the claim's "otherwise
`rejected` with the last error recorded" does not hold and the item can be
left `active` with a count of 0. -/
theorem c1_queue_counterexample :
    (runQueueItem false ⟨1, 10, 2, "pending", 0, none, none⟩
      (some ⟨10, 1, "A topic"⟩) (some ⟨2, "en", "English"⟩)
      [.error "prose generation failed", .error "prose generation failed",
        .error "audio failed"] 1 2).status = "active" ∧
    (runQueueItem false ⟨1, 10, 2, "pending", 0, none, none⟩
      (some ⟨10, 1, "A topic"⟩) (some ⟨2, "en", "English"⟩)
      [.error "prose generation failed", .error "prose generation failed",
        .error "audio failed"] 1 2).testsGenerated = 0 ∧
    (runQueueItem false ⟨1, 10, 2, "pending", 0, none, none⟩
      (some ⟨10, 1, "A topic"⟩) (some ⟨2, "en", "English"⟩)
      [.error "prose generation failed", .error "prose generation failed",
        .error "audio failed"] 1 2).errorLog = none := by
  exact ⟨rfl, rfl, rfl⟩

/-- Claim C1 (amended): after all target difficulties have been attempted,
the queue item is marked `active` with the per-difficulty success count —
whether or not that count is greater than 0, and with no error recorded
for the failed difficulties; it is marked `rejected` (with the raised
error in its error log) only when processing the item itself raises,
i.e. when the topic or the language lookup fails. -/
theorem c1_queue_item_final_status (row : QueueRow) (topic : TopicRecord)
    (lang : Language) (results : List (Except String Bool)) (t1 t2 : Nat) :
    (runQueueItem false row (some topic) (some lang) results t1 t2).status = "active" ∧
    (runQueueItem false row (some topic) (some lang) results t1 t2).testsGenerated =
      countSuccesses results ∧
    (runQueueItem false row (some topic) (some lang) results t1 t2).errorLog =
      row.errorLog ∧
    (runQueueItem false row none (some lang) results t1 t2).status = "rejected" ∧
    (runQueueItem false row none (some lang) results t1 t2).errorLog =
      some ("Topic not found: " ++ toString row.topicId) ∧
    (runQueueItem false row (some topic) none results t1 t2).status = "rejected" ∧
    (runQueueItem false row (some topic) none results t1 t2).errorLog =
      some ("Language not found: " ++ toString row.languageId) := by
  refine ⟨rfl, rfl, rfl, rfl, ?_, rfl, ?_⟩
  · show (mark_queue_failed _ _ _).errorLog = _
    simp only [mark_queue_failed, update_queue_item_status]
    rw [if_neg]
    intro he
    exact string_append_ne_empty "Topic not found: " (toString row.topicId)
      (by decide) he
  · show (mark_queue_failed _ _ _).errorLog = _
    simp only [mark_queue_failed, update_queue_item_status]
    rw [if_neg]
    intro he
    exact string_append_ne_empty "Language not found: " (toString row.languageId)
      (by decide) he

/-! ## Claim C2 (queue claim operation) -/

/-- Claim C2, counterexample: `update_queue_item_status` filters only on
the row id, not on the current status.  A second claim attempt on a row
that is already `processing` succeeds and rewrites the row (fresh
`processed_at`), and a claim attempt on a row that is already `active`
moves it back to `processing` — so the transition is not conditional on
the status still being `pending`, and transitions outside
`pending→processing→{active,rejected}` are possible. -/
theorem c2_claim_counterexample :
    mark_queue_processing ⟨1, 10, 2, "processing", 0, some 5, none⟩ 7 ≠
      ⟨1, 10, 2, "processing", 0, some 5, none⟩ ∧
    (mark_queue_processing ⟨1, 10, 2, "active", 2, some 5, none⟩ 9).status =
      "processing" := by
  exact ⟨by decide, rfl⟩

/-- Claim C2 (amended): the claim operation (`mark_queue_processing`, via
`update_queue_item_status`) is an unconditional update of the row selected
by id: it overwrites the status, resets the tests-generated count and
refreshes `processed_at` regardless of the row's current status, so a
second concurrent run re-claims an item that is already `processing` (or
even one already `active`/`rejected`); the
`pending→processing→{active,rejected}` discipline is not enforced by this
operation. -/
theorem c2_claim_unconditional (row : QueueRow) (code : String) (n : Nat)
    (err : Option String) (now : Nat) :
    (update_queue_item_status row code n err now).status = code ∧
    (update_queue_item_status row code n err now).testsGenerated = n ∧
    (update_queue_item_status row code n err now).processedAt = some now ∧
    (∀ s, update_queue_item_status { row with status := s } code n err now =
      update_queue_item_status row code n err now) := by
  exact ⟨rfl, rfl, rfl, fun s => rfl⟩

/-! ## Gatekeeper lemmas (for C3 and C9) -/

theorem gkLoop_stop (thr : Nat) (langs : List (Language × Except Unit String))
    (consec : Nat) (h : thr ≤ consec) : gkLoop thr langs consec = ([], 0, 0) := by
  cases langs with
  | nil => rfl
  | cons p rest =>
    obtain ⟨l, r⟩ := p
    simp [gkLoop, h]

theorem gkLoop_calls_le_length (thr : Nat) :
    ∀ (langs : List (Language × Except Unit String)) (consec : Nat),
      (gkLoop thr langs consec).2.2 ≤ langs.length := by
  intro langs
  induction langs with
  | nil => intro consec; simp [gkLoop]
  | cons p rest ih =>
    intro consec
    obtain ⟨l, r⟩ := p
    by_cases h : thr ≤ consec
    · rw [gkLoop_stop thr _ consec h]
      exact Nat.zero_le _
    · simp only [gkLoop, if_neg h, List.length_cons]
      by_cases hd : (validate_for_language r).1
      · simp only [hd, if_true]
        exact Nat.succ_le_succ (ih 0)
      · simp only [hd, if_false]
        exact Nat.succ_le_succ (ih (consec + 1))

theorem gkLoop_calls_bound (thr : Nat) :
    ∀ (langs : List (Language × Except Unit String)) (consec : Nat),
      consec < thr →
      (gkLoop thr langs consec).2.2 ≤
        (gkLoop thr langs consec).1.length * thr + (thr - consec) := by
  intro langs
  induction langs with
  | nil => intro consec _; simp [gkLoop]
  | cons p rest ih =>
    intro consec h
    obtain ⟨l, r⟩ := p
    simp only [gkLoop, if_neg (Nat.not_le.mpr h)]
    by_cases hd : (validate_for_language r).1 = true
    · rw [if_pos hd]
      simp only [List.length_cons, Nat.succ_mul]
      have hb := ih 0 (Nat.lt_of_le_of_lt (Nat.zero_le _) h)
      generalize (gkLoop thr rest 0).2.2 = cl at hb ⊢
      generalize (gkLoop thr rest 0).1.length * thr = k at hb ⊢
      omega
    · rw [if_neg hd]
      by_cases h2 : consec + 1 < thr
      · have hb := ih (consec + 1) h2
        simp only [List.length_cons]
        generalize (gkLoop thr rest (consec + 1)).2.2 = cl at hb ⊢
        generalize (gkLoop thr rest (consec + 1)).1.length * thr = k at hb ⊢
        omega
      · rw [gkLoop_stop thr rest (consec + 1) (Nat.not_lt.mp h2)]
        simp
        omega

theorem gkLoop_all_rejected (thr : Nat) :
    ∀ (langs : List (Language × Except Unit String)),
      (∀ p ∈ langs, (validate_for_language p.2).1 = false) →
      ∀ consec, (gkLoop thr langs consec).2.2 = min langs.length (thr - consec) := by
  intro langs
  induction langs with
  | nil => intro _ consec; simp [gkLoop]
  | cons p rest ih =>
    intro h consec
    obtain ⟨l, r⟩ := p
    by_cases hc : thr ≤ consec
    · rw [gkLoop_stop thr _ consec hc]
      simp
      omega
    · have hd : ¬((validate_for_language r).1 = true) := by
        rw [h (l, r) (List.mem_cons_self _ _)]
        exact Bool.false_ne_true
      simp only [gkLoop, if_neg hc]
      rw [if_neg hd]
      simp only [List.length_cons]
      rw [ih (fun q hq => h q (List.mem_cons_of_mem _ hq)) (consec + 1)]
      omega

theorem validate_for_language_errToNo (p : Language × Except Unit String) :
    validate_for_language (errToNo p).2 = validate_for_language p.2 := by
  obtain ⟨l, r⟩ := p
  cases r with
  | error u =>
    cases u
    show validate_for_language (Except.ok "no" : Except Unit String) =
      validate_for_language (Except.error () : Except Unit String)
    decide
  | ok s => rfl

theorem errToNo_fst (p : Language × Except Unit String) : (errToNo p).1 = p.1 := by
  obtain ⟨l, r⟩ := p
  cases r <;> rfl

theorem gkLoop_errToNo (thr : Nat) :
    ∀ (langs : List (Language × Except Unit String)) (consec : Nat),
      gkLoop thr (langs.map errToNo) consec = gkLoop thr langs consec := by
  intro langs
  induction langs with
  | nil => intro consec; rfl
  | cons p rest ih =>
    intro consec
    obtain ⟨l, r⟩ := p
    by_cases hc : thr ≤ consec
    · rw [gkLoop_stop thr _ consec hc, gkLoop_stop thr _ consec hc]
    · simp only [List.map_cons]
      have h1 : errToNo (l, r) = ((errToNo (l, r)).1, (errToNo (l, r)).2) := rfl
      rw [h1, errToNo_fst]
      simp only [gkLoop, if_neg hc, validate_for_language_errToNo (l, r), ih]

/-! ## Claim C3 (gatekeeper short-circuit call counts) -/

/-- Claim C3, counterexample: with short-circuit threshold 3 and nine
languages whose verdicts are no, no, yes, no, no, yes, no, no, no, the
consecutive-rejection counter resets on each approval, so all nine
languages are evaluated — nine language-model calls — while the claim's
bound `approved + threshold` is `2 + 3 = 5`.  The claimed bound therefore
fails. -/
theorem c3_call_bound_counterexample :
    gkCalls
      [(⟨1, "l1", "L1"⟩, .ok "no"), (⟨2, "l2", "L2"⟩, .ok "no"),
       (⟨3, "l3", "L3"⟩, .ok "yes"), (⟨4, "l4", "L4"⟩, .ok "no"),
       (⟨5, "l5", "L5"⟩, .ok "no"), (⟨6, "l6", "L6"⟩, .ok "yes"),
       (⟨7, "l7", "L7"⟩, .ok "no"), (⟨8, "l8", "L8"⟩, .ok "no"),
       (⟨9, "l9", "L9"⟩, .ok "no")] 3 = 9 ∧
    (gkApproved
      [(⟨1, "l1", "L1"⟩, .ok "no"), (⟨2, "l2", "L2"⟩, .ok "no"),
       (⟨3, "l3", "L3"⟩, .ok "yes"), (⟨4, "l4", "L4"⟩, .ok "no"),
       (⟨5, "l5", "L5"⟩, .ok "no"), (⟨6, "l6", "L6"⟩, .ok "yes"),
       (⟨7, "l7", "L7"⟩, .ok "no"), (⟨8, "l8", "L8"⟩, .ok "no"),
       (⟨9, "l9", "L9"⟩, .ok "no")] 3).length = 2 ∧
    ¬(9 ≤ 2 + 3) := by
  exact ⟨by decide, by decide, by decide⟩

/-- Claim C3 (amended): `validate_for_all_languages` makes at most
`|languages|` language-model calls and at most
`(approved + 1) * short_circuit_threshold` calls (the claimed
`approved + threshold` bound fails when rejections are interleaved with
approvals, since the consecutive-rejection counter resets on approval);
and for a candidate rejected by every language, with at least
`short_circuit_threshold` languages available, the number of calls made
equals exactly the short-circuit threshold. -/
theorem c3_gatekeeper_call_bounds (langs : List (Language × Except Unit String))
    (thr : Nat) (hthr : 0 < thr) :
    gkCalls langs thr ≤ langs.length ∧
    gkCalls langs thr ≤ ((gkApproved langs thr).length + 1) * thr ∧
    ((∀ p ∈ langs, (validate_for_language p.2).1 = false) →
      thr ≤ langs.length → gkCalls langs thr = thr) := by
  refine ⟨gkLoop_calls_le_length thr langs 0, ?_, ?_⟩
  · have hb := gkLoop_calls_bound thr langs 0 hthr
    show (gkLoop thr langs 0).2.2 ≤ ((gkLoop thr langs 0).1.length + 1) * thr
    calc (gkLoop thr langs 0).2.2
        ≤ (gkLoop thr langs 0).1.length * thr + (thr - 0) := hb
      _ = ((gkLoop thr langs 0).1.length + 1) * thr := by
          rw [Nat.succ_mul]
          omega
  · intro hall hlen
    show (gkLoop thr langs 0).2.2 = thr
    rw [gkLoop_all_rejected thr langs hall 0]
    omega

/-- Claim C3, witness: four languages, all rejecting, threshold 3:
exactly 3 calls are made. -/
theorem c3_gatekeeper_call_bounds_witness :
    (0 : Nat) < 3 ∧
    gkCalls
      [(⟨1, "l1", "L1"⟩, .ok "no"), (⟨2, "l2", "L2"⟩, .ok "no"),
       (⟨3, "l3", "L3"⟩, .ok "no"), (⟨4, "l4", "L4"⟩, .ok "no")] 3 = 3 := by
  refine ⟨by decide, ?_⟩
  exact (c3_gatekeeper_call_bounds
    [(⟨1, "l1", "L1"⟩, .ok "no"), (⟨2, "l2", "L2"⟩, .ok "no"),
     (⟨3, "l3", "L3"⟩, .ok "no"), (⟨4, "l4", "L4"⟩, .ok "no")] 3
    (by decide)).2.2 (by decide) (by decide)

/-! ## Claim C9 (gatekeeper exception handling) -/

/-- Claim C9: when the chat-completion call inside `validate_for_language`
raises, the function returns `False` and counts the language as a
rejection (incrementing the agent's rejection counter by 1); and a
gatekeeper sweep behaves exactly as if every raising call had answered
"no" — exceptions feed the consecutive-rejection short-circuit like
ordinary rejections and are never propagated to the caller
(`validate_for_all_languages` is a total function of the call outcomes). -/
theorem c9_gatekeeper_exception_is_rejection :
    (∀ u : Unit, validate_for_language (Except.error u) = (false, 1)) ∧
    (∀ (langs : List (Language × Except Unit String)) (thr : Nat),
      validate_for_all_languages (langs.map errToNo) thr =
        validate_for_all_languages langs thr) := by
  constructor
  · intro u; rfl
  · intro langs thr
    exact gkLoop_errToNo thr langs 0

/-! ## Claim C6 (parser answer recovery) -/

theorem getD_mem_of_lt (l : List String) (i : Nat) (h : i < l.length) :
    l.getD i "" ∈ l := by
  rw [List.getD_eq_getElem l "" h]
  exact List.getElem_mem h

/-- Branch structure of the recovery tail once the stripped answer is known
not to be among the stripped options. -/
theorem recover_answer_eq (answerRaw : String) (optionsRaw : List String)
    (h : pyStrip answerRaw ∉ optionsRaw.map pyStrip) :
    recover_answer answerRaw optionsRaw =
      (if pyStrip answerRaw = "A" ∨ pyStrip answerRaw = "B" ∨
          pyStrip answerRaw = "C" ∨ pyStrip answerRaw = "D" then
        if (((pyStrip answerRaw).data.headD 'A').toNat - ('A').toNat) < 4 then
          ((optionsRaw.map pyStrip).getD
            (((pyStrip answerRaw).data.headD 'A').toNat - ('A').toNat) "",
            optionsRaw.map pyStrip)
        else (answerRaw, optionsRaw.map pyStrip)
      else
        match (optionsRaw.map pyStrip).find? (answerMatches (pyStrip answerRaw)) with
        | some opt => (opt, optionsRaw.map pyStrip)
        | none => ((optionsRaw.map pyStrip).getD 0 "", optionsRaw.map pyStrip)) := by
  simp only [recover_answer]
  rw [if_neg h]

theorem recover_answer_letter (answerRaw : String) (optionsRaw : List String)
    (h : pyStrip answerRaw ∉ optionsRaw.map pyStrip) (i : Nat) (hi : i < 4)
    (hdisj : pyStrip answerRaw = "A" ∨ pyStrip answerRaw = "B" ∨
      pyStrip answerRaw = "C" ∨ pyStrip answerRaw = "D")
    (hidx : ((pyStrip answerRaw).data.headD 'A').toNat - ('A').toNat = i) :
    recover_answer answerRaw optionsRaw =
      ((optionsRaw.map pyStrip).getD i "", optionsRaw.map pyStrip) := by
  rw [recover_answer_eq answerRaw optionsRaw h, if_pos hdisj, hidx, if_pos hi]

/-- Claim C6, counterexample: the stated answer `"Paris "` is not verbatim
one of the 4 choices `["Paris", "London", "Rome", "Berlin"]`, yet the
parser performs no recovery (it compares the *stripped* answer against the
stripped choices, and `"Paris"` matches), returns the answer unchanged,
and the returned answer is not one of the returned 4 choices. -/
theorem c6_recovery_counterexample :
    ("Paris " ∉ ["Paris", "London", "Rome", "Berlin"]) ∧
    (recover_answer "Paris " ["Paris", "London", "Rome", "Berlin"]).1 = "Paris " ∧
    (recover_answer "Paris " ["Paris", "London", "Rome", "Berlin"]).1 ∉
      (recover_answer "Paris " ["Paris", "London", "Rome", "Berlin"]).2 := by
  exact ⟨by decide, by decide, by decide⟩

/-- Claim C6 (amended): for every parsed question whose stated answer is,
*after stripping surrounding whitespace*, not one of its 4 stripped
choices, the parser recovers an answer rather than discarding the
question: a single letter A-D is mapped to the (stripped) choice at that
index (e.g. "B" yields the text of choice index 1), otherwise the first
choice that contains or is contained in the stated answer
(case-insensitively) is used, otherwise the first choice is used;
consequently the returned answer is then literally one of the returned 4
(stripped) choices.  (When the stripped answer does match a stripped
choice the answer is kept exactly as stated, so in general only its
stripped form is guaranteed to be among the choices.) -/
theorem c6_answer_recovery (answerRaw : String) (optionsRaw : List String)
    (h4 : optionsRaw.length = 4)
    (h : pyStrip answerRaw ∉ optionsRaw.map pyStrip) :
    (recover_answer answerRaw optionsRaw).2 = optionsRaw.map pyStrip ∧
    (recover_answer answerRaw optionsRaw).1 ∈ optionsRaw.map pyStrip ∧
    (pyStrip answerRaw = "A" →
      (recover_answer answerRaw optionsRaw).1 = (optionsRaw.map pyStrip).getD 0 "") ∧
    (pyStrip answerRaw = "B" →
      (recover_answer answerRaw optionsRaw).1 = (optionsRaw.map pyStrip).getD 1 "") ∧
    (pyStrip answerRaw = "C" →
      (recover_answer answerRaw optionsRaw).1 = (optionsRaw.map pyStrip).getD 2 "") ∧
    (pyStrip answerRaw = "D" →
      (recover_answer answerRaw optionsRaw).1 = (optionsRaw.map pyStrip).getD 3 "") ∧
    ((pyStrip answerRaw ≠ "A" ∧ pyStrip answerRaw ≠ "B" ∧
        pyStrip answerRaw ≠ "C" ∧ pyStrip answerRaw ≠ "D") →
      (∀ o, (optionsRaw.map pyStrip).find? (answerMatches (pyStrip answerRaw)) =
          some o → (recover_answer answerRaw optionsRaw).1 = o) ∧
      ((optionsRaw.map pyStrip).find? (answerMatches (pyStrip answerRaw)) = none →
        (recover_answer answerRaw optionsRaw).1 =
          (optionsRaw.map pyStrip).getD 0 "")) := by
  have hlen : (optionsRaw.map pyStrip).length = 4 := by
    rw [List.length_map]; exact h4
  by_cases hA : pyStrip answerRaw = "A"
  · have key := recover_answer_letter answerRaw optionsRaw h 0 (by decide)
      (Or.inl hA) (by rw [hA]; decide)
    rw [key]
    refine ⟨rfl, getD_mem_of_lt _ 0 (by omega), fun _ => rfl, ?_, ?_, ?_, ?_⟩
    · intro hb; exact absurd (hA.symm.trans hb) (by decide)
    · intro hb; exact absurd (hA.symm.trans hb) (by decide)
    · intro hb; exact absurd (hA.symm.trans hb) (by decide)
    · intro hne; exact absurd hA hne.1
  by_cases hB : pyStrip answerRaw = "B"
  · have key := recover_answer_letter answerRaw optionsRaw h 1 (by decide)
      (Or.inr (Or.inl hB)) (by rw [hB]; decide)
    rw [key]
    refine ⟨rfl, getD_mem_of_lt _ 1 (by omega), ?_, fun _ => rfl, ?_, ?_, ?_⟩
    · intro hb; exact absurd (hB.symm.trans hb) (by decide)
    · intro hb; exact absurd (hB.symm.trans hb) (by decide)
    · intro hb; exact absurd (hB.symm.trans hb) (by decide)
    · intro hne; exact absurd hB hne.2.1
  by_cases hC : pyStrip answerRaw = "C"
  · have key := recover_answer_letter answerRaw optionsRaw h 2 (by decide)
      (Or.inr (Or.inr (Or.inl hC))) (by rw [hC]; decide)
    rw [key]
    refine ⟨rfl, getD_mem_of_lt _ 2 (by omega), ?_, ?_, fun _ => rfl, ?_, ?_⟩
    · intro hb; exact absurd (hC.symm.trans hb) (by decide)
    · intro hb; exact absurd (hC.symm.trans hb) (by decide)
    · intro hb; exact absurd (hC.symm.trans hb) (by decide)
    · intro hne; exact absurd hC hne.2.2.1
  by_cases hD : pyStrip answerRaw = "D"
  · have key := recover_answer_letter answerRaw optionsRaw h 3 (by decide)
      (Or.inr (Or.inr (Or.inr hD))) (by rw [hD]; decide)
    rw [key]
    refine ⟨rfl, getD_mem_of_lt _ 3 (by omega), ?_, ?_, ?_, fun _ => rfl, ?_⟩
    · intro hb; exact absurd (hD.symm.trans hb) (by decide)
    · intro hb; exact absurd (hD.symm.trans hb) (by decide)
    · intro hb; exact absurd (hD.symm.trans hb) (by decide)
    · intro hne; exact absurd hD hne.2.2.2
  · have hnl : ¬(pyStrip answerRaw = "A" ∨ pyStrip answerRaw = "B" ∨
        pyStrip answerRaw = "C" ∨ pyStrip answerRaw = "D") := by
      intro hdisj
      rcases hdisj with hx | hx | hx | hx
      · exact hA hx
      · exact hB hx
      · exact hC hx
      · exact hD hx
    cases hfind : (optionsRaw.map pyStrip).find? (answerMatches (pyStrip answerRaw)) with
    | some o =>
      have key : recover_answer answerRaw optionsRaw = (o, optionsRaw.map pyStrip) := by
        rw [recover_answer_eq answerRaw optionsRaw h, if_neg hnl, hfind]
      rw [key]
      refine ⟨rfl, List.mem_of_find?_eq_some hfind, ?_, ?_, ?_, ?_, ?_⟩
      · intro hb; exact absurd hb hA
      · intro hb; exact absurd hb hB
      · intro hb; exact absurd hb hC
      · intro hb; exact absurd hb hD
      · intro _
        constructor
        · intro o' ho'
          cases ho'
          rfl
        · intro hnone
          cases hnone
    | none =>
      have key : recover_answer answerRaw optionsRaw =
          ((optionsRaw.map pyStrip).getD 0 "", optionsRaw.map pyStrip) := by
        rw [recover_answer_eq answerRaw optionsRaw h, if_neg hnl, hfind]
      rw [key]
      refine ⟨rfl, getD_mem_of_lt _ 0 (by omega), ?_, ?_, ?_, ?_, ?_⟩
      · intro hb; exact absurd hb hA
      · intro hb; exact absurd hb hB
      · intro hb; exact absurd hb hC
      · intro hb; exact absurd hb hD
      · intro _
        constructor
        · intro o' ho'
          cases ho'
        · intro _
          rfl

/-- Claim C6, witness: the letter answer "B" with choices
["w", "x", "y", "z"] recovers the text of choice index 1. -/
theorem c6_answer_recovery_witness :
    (["w", "x", "y", "z"].length = 4 ∧
      pyStrip "B" ∉ ["w", "x", "y", "z"].map pyStrip) ∧
    (recover_answer "B" ["w", "x", "y", "z"]).1 = "x" := by
  refine ⟨⟨by decide, by decide⟩, ?_⟩
  have key := (c6_answer_recovery "B" ["w", "x", "y", "z"]
    (by decide) (by decide)).2.2.2.1 (by decide)
  rw [key]
  decide

/-! ## Tokenization lemmas (for C5) -/

theorem char_toNat_ofNat_lt (n : Nat) (h : n < 55296) : (Char.ofNat n).toNat = n := by
  unfold Char.ofNat
  rw [dif_pos (Or.inl h)]
  rfl

theorem ws_char_toNat (c : Char) (h : c.isWhitespace = true) :
    c.toNat = 32 ∨ c.toNat = 9 ∨ c.toNat = 13 ∨ c.toNat = 10 := by
  unfold Char.isWhitespace at h
  simp only [Bool.or_eq_true, decide_eq_true_eq] at h
  rcases h with ((rfl | rfl) | rfl) | rfl <;> decide

theorem toLower_not_ws (c : Char) (h : c.isWhitespace = false) :
    (Char.toLower c).isWhitespace = false := by
  unfold Char.toLower
  by_cases hr : c.toNat ≥ 65 ∧ c.toNat ≤ 90
  · rw [if_pos hr]
    cases hw : (Char.ofNat (c.toNat + 32)).isWhitespace with
    | false => rfl
    | true =>
      have hn := ws_char_toNat _ hw
      rw [char_toNat_ofNat_lt (c.toNat + 32) (by omega)] at hn
      omega
  · rw [if_neg hr]
    exact h

theorem stripChars_ne_nil_imp (cs : List Char) (h : stripChars cs ≠ []) :
    ∃ c ∈ cs, c.isWhitespace = false := by
  by_contra hall
  push_neg at hall
  apply h
  unfold stripChars
  have h1 : cs.dropWhile Char.isWhitespace = [] := by
    rw [List.dropWhile_eq_nil_iff]
    intro x hx
    have := hall x hx
    revert this
    cases x.isWhitespace <;> simp
  rw [h1]
  rfl

theorem pyWordsAux_ne_nil :
    ∀ (cs : List Char) (acc : List Char),
      ((∃ c ∈ cs, c.isWhitespace = false) ∨ acc ≠ []) → pyWordsAux cs acc ≠ [] := by
  intro cs
  induction cs with
  | nil =>
    intro acc h
    rcases h with ⟨c, hc, _⟩ | hacc
    · exact absurd hc (List.not_mem_nil c)
    · have ha : acc.isEmpty = false := by
        cases acc with
        | nil => exact absurd rfl hacc
        | cons a as => rfl
      simp [pyWordsAux, ha]
  | cons c rest ih =>
    intro acc h
    by_cases hw : c.isWhitespace = true
    · show (if c.isWhitespace = true then _ else _) ≠ []
      rw [if_pos hw]
      by_cases ha : acc.isEmpty = true
      · rw [if_pos ha]
        apply ih
        left
        rcases h with ⟨c', hc', hnw⟩ | hacc
        · rcases List.mem_cons.mp hc' with heq | hmem
          · rw [heq, hw] at hnw
            cases hnw
          · exact ⟨c', hmem, hnw⟩
        · exact absurd (List.isEmpty_iff.mp ha) hacc
      · rw [if_neg ha]
        simp
    · show (if c.isWhitespace = true then _ else _) ≠ []
      rw [if_neg hw]
      apply ih
      right
      simp

theorem tokenSet_ne_nil (s : String) (h : 5 ≤ pyLen (pyStrip s)) : tokenSet s ≠ [] := by
  have hne : stripChars s.data ≠ [] := by
    intro he
    have hz : pyLen (pyStrip s) = 0 := by
      show (stripChars s.data).length = 0
      rw [he]
      rfl
    omega
  obtain ⟨c, hc, hws⟩ := stripChars_ne_nil_imp _ hne
  intro hd
  have hwords : pyWords (s.data.map Char.toLower) = [] :=
    (List.dedup_eq_nil _).mp hd
  exact pyWordsAux_ne_nil (s.data.map Char.toLower) []
    (Or.inl ⟨Char.toLower c, List.mem_map_of_mem _ hc, toLower_not_ws c hws⟩) hwords

theorem unionCard_pos (nw pw : List (List Char)) (h : nw ≠ []) :
    0 < unionCard nw pw := by
  unfold unionCard
  have happ : nw ++ pw ≠ [] := by
    cases nw with
    | nil => exact absurd rfl h
    | cons a as => simp
  have hd : (nw ++ pw).dedup ≠ [] := by
    intro he
    exact happ ((List.dedup_eq_nil _).mp he)
  exact List.length_pos.mpr hd

theorem jaccardGE65_iff (a b : String) :
    jaccardGE65 a b = true ↔
      65 * unionCard (tokenSet a) (tokenSet b) ≤
        100 * interCard (tokenSet a) (tokenSet b) := by
  simp [jaccardGE65]

/-! ## Overlap-check characterization (for C5) -/

theorem checkOverlapGo_eq (nw : List (List Char)) (hnw : nw ≠ []) :
    ∀ prevs : List String,
      checkOverlapGo nw prevs =
        (if ∃ p ∈ prevs, 65 * unionCard nw (tokenSet p) ≤ 100 * interCard nw (tokenSet p)
          then .error "Question too similar to existing question"
          else .ok ()) := by
  intro prevs
  induction prevs with
  | nil => simp [checkOverlapGo]
  | cons p ps ih =>
    show (if 0 < unionCard nw (tokenSet p) ∧
        65 * unionCard nw (tokenSet p) ≤ 100 * interCard nw (tokenSet p) then _ else _) = _
    have hu : 0 < unionCard nw (tokenSet p) := unionCard_pos nw (tokenSet p) hnw
    by_cases hle : 65 * unionCard nw (tokenSet p) ≤ 100 * interCard nw (tokenSet p)
    · rw [if_pos ⟨hu, hle⟩, if_pos ⟨p, List.mem_cons_self p ps, hle⟩]
    · rw [if_neg (fun hand => hle hand.2), ih]
      by_cases hex : ∃ q ∈ ps, 65 * unionCard nw (tokenSet q) ≤ 100 * interCard nw (tokenSet q)
      · obtain ⟨q, hq, hqle⟩ := hex
        rw [if_pos ⟨q, hq, hqle⟩, if_pos ⟨q, List.mem_cons_of_mem p hq, hqle⟩]
      · rw [if_neg hex, if_neg ?_]
        rintro ⟨q, hq, hqle⟩
        rcases List.mem_cons.mp hq with heq | hmem
        · rw [heq] at hqle
          exact hle hqle
        · exact hex ⟨q, hmem, hqle⟩

/-! ## Structure-check extraction (for C5) -/

theorem validate_structure_ok (q : QDict) (h : validate_structure q = .ok ()) :
    ∃ qt, q.question = some qt ∧ 5 ≤ pyLen (pyStrip qt) := by
  obtain ⟨oq, oc, oa⟩ := q
  cases oq with
  | none => exact Except.noConfusion h
  | some qt =>
    cases oc with
    | none => exact Except.noConfusion h
    | some cs =>
      cases oa with
      | none => exact Except.noConfusion h
      | some ans =>
        dsimp only [validate_structure] at h
        by_cases hlt : pyLen (pyStrip qt) < 5
        · rw [if_pos hlt] at h
          exact Except.noConfusion h
        · exact ⟨qt, rfl, by omega⟩

/-! ## Claim C5 (question overlap rejection) -/

/-- Claim C5: for a question passing the validator's structural and
content checks, `validate_question` rejects it if and only if some
previously accepted question text in the same test has Jaccard similarity
at least 0.65 with it, where similarity is computed on the lower-cased
whitespace-token sets of the two texts. -/
theorem c5_overlap_rejection (q : QDict) (prose : String) (prevs : List String)
    (hs : validate_structure q = .ok ()) (hc : validate_content q = .ok ()) :
    (validate_question q prose prevs).1 = false ↔
      ∃ p ∈ prevs, jaccardGE65 (q.question.getD "") p = true := by
  obtain ⟨qt, hq, hlen⟩ := validate_structure_ok q hs
  have hts : tokenSet qt ≠ [] := tokenSet_ne_nil qt hlen
  rw [hq]
  simp only [Option.getD_some]
  show (match validateQuestionE q prose prevs with
    | .ok _ => (true, none)
    | .error e => ((false : Bool), some e)).1 = false ↔ _
  unfold validateQuestionE
  rw [hs, hc]
  show (match (if prevs.isEmpty then pure () else check_overlap (q.question.getD "") prevs :
      Except String Unit) with
    | .ok _ => ((true : Bool), (none : Option String))
    | .error e => ((false : Bool), some e)).1 = false ↔ _
  rw [hq]
  simp only [Option.getD_some]
  cases prevs with
  | nil =>
    rw [if_pos (show ([] : List String).isEmpty = true from rfl)]
    constructor
    · intro hfl
      exact absurd hfl (by decide)
    · rintro ⟨p, hp, _⟩
      exact absurd hp (List.not_mem_nil p)
  | cons p ps =>
    rw [if_neg (by simp)]
    unfold check_overlap
    rw [checkOverlapGo_eq (tokenSet qt) hts (p :: ps)]
    by_cases hex : ∃ r ∈ p :: ps,
        65 * unionCard (tokenSet qt) (tokenSet r) ≤ 100 * interCard (tokenSet qt) (tokenSet r)
    · rw [if_pos hex]
      constructor
      · intro _
        obtain ⟨r, hr, hrle⟩ := hex
        exact ⟨r, hr, (jaccardGE65_iff qt r).mpr hrle⟩
      · intro _
        rfl
    · rw [if_neg hex]
      constructor
      · intro hfl
        exact absurd hfl (by decide)
      · rintro ⟨r, hr, hj⟩
        exact absurd ⟨r, hr, (jaccardGE65_iff qt r).mp hj⟩ hex

/-- Claim C5, witness: a structurally valid question is rejected exactly
when a previously accepted question has token-Jaccard similarity at
least 0.65 (here: an identical previous text, similarity 1). -/
theorem c5_overlap_rejection_witness :
    (validate_structure ⟨some "What is it?", some ["a", "b", "c", "d"], some "b"⟩ =
        .ok () ∧
      validate_content ⟨some "What is it?", some ["a", "b", "c", "d"], some "b"⟩ =
        .ok ()) ∧
    ((validate_question ⟨some "What is it?", some ["a", "b", "c", "d"], some "b"⟩
        "prose" ["what is it?"]).1 = false ↔
      ∃ p ∈ ["what is it?"],
        jaccardGE65 ((⟨some "What is it?", some ["a", "b", "c", "d"], some "b"⟩ :
          QDict).question.getD "") p = true) := by
  refine ⟨⟨rfl, rfl⟩, ?_⟩
  exact c5_overlap_rejection ⟨some "What is it?", some ["a", "b", "c", "d"], some "b"⟩
    "prose" ["what is it?"] rfl rfl

/-! ## Claim C8 (idempotent validation) -/

theorem validateAllGo_cons (prose : String) (q : QDict) (rest : List QDict)
    (texts : List String) (i : Nat) :
    validateAllGo prose (q :: rest) texts i =
      if (validate_question q prose texts).1 then
        (q :: (validateAllGo prose rest (texts ++ [q.question.getD ""]) (i + 1)).1,
          (validateAllGo prose rest (texts ++ [q.question.getD ""]) (i + 1)).2)
      else
        ((validateAllGo prose rest texts (i + 1)).1,
          ("Q" ++ toString (i + 1) ++ ": " ++
            (validate_question q prose texts).2.getD "") ::
            (validateAllGo prose rest texts (i + 1)).2) := rfl

theorem validateAllGo_idem (prose : String) :
    ∀ (qs : List QDict) (texts : List String) (i j : Nat),
      validateAllGo prose ((validateAllGo prose qs texts i).1) texts j =
        ((validateAllGo prose qs texts i).1, []) := by
  intro qs
  induction qs with
  | nil => intro texts i j; rfl
  | cons q rest ih =>
    intro texts i j
    rw [validateAllGo_cons prose q rest texts i]
    by_cases hr : (validate_question q prose texts).1 = true
    · rw [if_pos hr]
      show validateAllGo prose
          (q :: (validateAllGo prose rest (texts ++ [q.question.getD ""]) (i + 1)).1)
          texts j =
        (q :: (validateAllGo prose rest (texts ++ [q.question.getD ""]) (i + 1)).1, [])
      rw [validateAllGo_cons prose q _ texts j, if_pos hr,
        ih (texts ++ [q.question.getD ""]) (i + 1) (j + 1)]
    · rw [if_neg hr]
      show validateAllGo prose ((validateAllGo prose rest texts (i + 1)).1) texts j =
        ((validateAllGo prose rest texts (i + 1)).1, [])
      exact ih texts (i + 1) j

/-- Claim C8: validation is idempotent — re-validating the accepted list of
`validate_all_questions` (with the same prose) accepts exactly the same
questions in the same order, with no errors. -/
theorem c8_validation_idempotent (questions : List QDict) (prose : String) :
    validate_all_questions (validate_all_questions questions prose).1 prose =
      ((validate_all_questions questions prose).1, []) :=
  validateAllGo_idem prose questions [] 0 0

/-! ## Candidate-loop branch lemmas (for C4, C7, C10) -/

theorem processCandidate_stop (cfg : RunCfg) (env : TopicEnv) (cat : Category)
    (s : RunState) (c : TopicCandidate) (h : cfg.dailyTopicQuota ≤ s.approvedCount) :
    processCandidate cfg env cat s c = s := by
  unfold processCandidate
  rw [if_pos h]

theorem processCandidate_no_lens (cfg : RunCfg) (env : TopicEnv) (cat : Category)
    (s : RunState) (c : TopicCandidate)
    (h : ¬(cfg.dailyTopicQuota ≤ s.approvedCount))
    (hl : find_lens env.lenses c.lensCode = none) :
    processCandidate cfg env cat s c = s := by
  unfold processCandidate
  rw [if_neg h, hl]

theorem processCandidate_some_lens (cfg : RunCfg) (env : TopicEnv) (cat : Category)
    (s : RunState) (c : TopicCandidate) (lens : Lens)
    (h : ¬(cfg.dailyTopicQuota ≤ s.approvedCount))
    (hl : find_lens env.lenses c.lensCode = some lens) :
    processCandidate cfg env cat s c =
      (let signature := construct_semantic_signature cat.name c.concept lens c.keywords
      let novelty := check_novelty env cat.id signature cfg.similarityThreshold
      let noveltyEvents := noveltyEventsOf env cat.id signature
      if !novelty.1 then
        { s with
          rejectedSimilarity := s.rejectedSimilarity + 1
          events := s.events ++ noveltyEvents }
      else
        let gkInput := gatekeeperInput env c
        let res := validate_for_all_languages gkInput cfg.gkThreshold
        let approved := res.1
        let calls := res.2.2
        let gkEvents := (env.languages.take calls).map (fun l => DbEvent.llmGatekeeper l.id)
        let topicId := if cfg.dryRun then 0 else env.newTopicId s.nextTopicIdx
        let insertEvents :=
          if cfg.dryRun then ([] : List DbEvent)
          else [DbEvent.insertTopic cat.id c.concept lens.id novelty.2.2 signature]
        let checked := min env.languages.length (approved.length + cfg.gkThreshold)
        let s1 :=
          { s with
            events := s.events ++ noveltyEvents ++ insertEvents ++ gkEvents
            nextTopicIdx := if cfg.dryRun then s.nextTopicIdx else s.nextTopicIdx + 1
            rejectedGatekeeper := s.rejectedGatekeeper + (checked - approved.length) }
        if approved.isEmpty then s1
        else
          { s1 with
            approvedCount := s1.approvedCount + 1
            queueItems := s1.queueItems ++ approved.map (fun l => (topicId, l.id)) }) := by
  unfold processCandidate
  rw [if_neg h, hl]

theorem check_novelty_match (env : TopicEnv) (categoryId : Nat) (sig : String)
    (thr : Rat) (m : SimTopic) (ms : List SimTopic)
    (hemb : env.embedOf sig ≠ [])
    (hm : env.matchesOf categoryId (env.embedOf sig) thr = m :: ms) :
    check_novelty env categoryId sig thr =
      (false, some (rejection_reason m), env.embedOf sig) := by
  unfold check_novelty
  rw [if_neg (fun hi => hemb (List.isEmpty_iff.mp hi)), hm]

theorem check_novelty_novel (env : TopicEnv) (categoryId : Nat) (sig : String)
    (thr : Rat) (hemb : env.embedOf sig ≠ [])
    (hm : env.matchesOf categoryId (env.embedOf sig) thr = []) :
    check_novelty env categoryId sig thr = (true, none, env.embedOf sig) := by
  unfold check_novelty
  rw [if_neg (fun hi => hemb (List.isEmpty_iff.mp hi)), hm]

theorem noveltyEventsOf_of_ne (env : TopicEnv) (categoryId : Nat) (sig : String)
    (hemb : env.embedOf sig ≠ []) :
    noveltyEventsOf env categoryId sig =
      [DbEvent.embedCall sig, DbEvent.searchSimilar categoryId] := by
  unfold noveltyEventsOf
  rw [if_neg (fun hi => hemb (List.isEmpty_iff.mp hi))]

theorem processCandidate_simrej (cfg : RunCfg) (env : TopicEnv) (cat : Category)
    (s : RunState) (c : TopicCandidate) (lens : Lens)
    (hq : s.approvedCount < cfg.dailyTopicQuota)
    (hl : find_lens env.lenses c.lensCode = some lens)
    (hnov : (check_novelty env cat.id
      (construct_semantic_signature cat.name c.concept lens c.keywords)
      cfg.similarityThreshold).1 = false) :
    processCandidate cfg env cat s c =
      { s with
        rejectedSimilarity := s.rejectedSimilarity + 1
        events := s.events ++ noveltyEventsOf env cat.id
          (construct_semantic_signature cat.name c.concept lens c.keywords) } := by
  rw [processCandidate_some_lens cfg env cat s c lens (Nat.not_le.mpr hq) hl]
  show (if !(check_novelty env cat.id
      (construct_semantic_signature cat.name c.concept lens c.keywords)
      cfg.similarityThreshold).1 then _ else _) = _
  rw [hnov]
  rw [if_pos (by decide : (!false) = true)]

/-! ## Claim C4 (novelty rejection) -/

/-- Claim C4: when the category-scoped similarity search returns at least
one match for a candidate's signature embedding, `check_novelty` returns
`is_novel = False` with a reason naming the closest match and its
similarity, and the orchestrator's candidate loop then creates no topic
row and no queue rows for that candidate while incrementing the
`topics_rejected_similarity` metric by exactly 1; when the search returns
no match, the candidate is novel and the generated embedding is returned
for reuse. -/
theorem c4_novelty_rejection (cfg : RunCfg) (env : TopicEnv) (cat : Category)
    (s : RunState) (c : TopicCandidate) (lens : Lens) (m : SimTopic)
    (ms : List SimTopic)
    (hq : s.approvedCount < cfg.dailyTopicQuota)
    (hl : find_lens env.lenses c.lensCode = some lens)
    (hemb : env.embedOf (construct_semantic_signature cat.name c.concept lens
      c.keywords) ≠ []) :
    (env.matchesOf cat.id
        (env.embedOf (construct_semantic_signature cat.name c.concept lens c.keywords))
        cfg.similarityThreshold = m :: ms →
      check_novelty env cat.id
          (construct_semantic_signature cat.name c.concept lens c.keywords)
          cfg.similarityThreshold =
        (false, some (rejection_reason m),
          env.embedOf (construct_semantic_signature cat.name c.concept lens c.keywords)) ∧
      processCandidate cfg env cat s c =
        { s with
          rejectedSimilarity := s.rejectedSimilarity + 1
          events := s.events ++
            [DbEvent.embedCall
              (construct_semantic_signature cat.name c.concept lens c.keywords),
              DbEvent.searchSimilar cat.id] }) ∧
    (env.matchesOf cat.id
        (env.embedOf (construct_semantic_signature cat.name c.concept lens c.keywords))
        cfg.similarityThreshold = [] →
      check_novelty env cat.id
          (construct_semantic_signature cat.name c.concept lens c.keywords)
          cfg.similarityThreshold =
        (true, none,
          env.embedOf (construct_semantic_signature cat.name c.concept lens c.keywords))) := by
  constructor
  · intro hm
    have hcn := check_novelty_match env cat.id _ cfg.similarityThreshold m ms hemb hm
    refine ⟨hcn, ?_⟩
    rw [processCandidate_simrej cfg env cat s c lens hq hl (by rw [hcn]),
      noveltyEventsOf_of_ne env cat.id _ hemb]
  · intro hm
    exact check_novelty_novel env cat.id _ cfg.similarityThreshold hemb hm

/-- Claim C4, witness: a concrete candidate whose embedding matches an
existing topic with similarity 91% (threshold 85%) is rejected with a
reason naming the match, no topic/queue mutation happens, and the
similarity-rejection metric increments by one; with no match it is novel. -/
theorem c4_novelty_rejection_witness :
    ((0 : Nat) < 5 ∧
      find_lens [⟨1, "historical", "Historical"⟩] "historical" =
        some ⟨1, "historical", "Historical"⟩ ∧
      ((fun _ => [(1 : Rat)]) : String → List Rat)
        (construct_semantic_signature "Horses" "Farriery" ⟨1, "historical", "Historical"⟩
          ["iron"]) ≠ []) ∧
    (check_novelty
        { languages := [⟨1, "zh", "中文"⟩], lenses := [⟨1, "historical", "Historical"⟩],
          category := some ⟨7, "Horses"⟩, explorerTemplate := some "e",
          gatekeeperTemplate := some "g", candidates := [⟨"Farriery", "historical", ["iron"]⟩],
          embedOf := fun _ => [(1 : Rat)],
          matchesOf := fun _ _ _ => [⟨"The history of horseshoes", (91 : Rat) / 100⟩],
          gkResponse := fun _ _ => .ok "yes", newTopicId := fun n => n + 100 } 7
        (construct_semantic_signature "Horses" "Farriery" ⟨1, "historical", "Historical"⟩
          ["iron"]) ((85 : Rat) / 100)).1 = false ∧
    (processCandidate ⟨false, 5, (85 : Rat) / 100, 3⟩
        { languages := [⟨1, "zh", "中文"⟩], lenses := [⟨1, "historical", "Historical"⟩],
          category := some ⟨7, "Horses"⟩, explorerTemplate := some "e",
          gatekeeperTemplate := some "g", candidates := [⟨"Farriery", "historical", ["iron"]⟩],
          embedOf := fun _ => [(1 : Rat)],
          matchesOf := fun _ _ _ => [⟨"The history of horseshoes", (91 : Rat) / 100⟩],
          gkResponse := fun _ _ => .ok "yes", newTopicId := fun n => n + 100 } ⟨7, "Horses"⟩
        initState ⟨"Farriery", "historical", ["iron"]⟩).rejectedSimilarity = 1 ∧
    (processCandidate ⟨false, 5, (85 : Rat) / 100, 3⟩
        { languages := [⟨1, "zh", "中文"⟩], lenses := [⟨1, "historical", "Historical"⟩],
          category := some ⟨7, "Horses"⟩, explorerTemplate := some "e",
          gatekeeperTemplate := some "g", candidates := [⟨"Farriery", "historical", ["iron"]⟩],
          embedOf := fun _ => [(1 : Rat)],
          matchesOf := fun _ _ _ => [⟨"The history of horseshoes", (91 : Rat) / 100⟩],
          gkResponse := fun _ _ => .ok "yes", newTopicId := fun n => n + 100 } ⟨7, "Horses"⟩
        initState ⟨"Farriery", "historical", ["iron"]⟩).queueItems = [] := by
  have h := (c4_novelty_rejection ⟨false, 5, (85 : Rat) / 100, 3⟩
      { languages := [⟨1, "zh", "中文"⟩], lenses := [⟨1, "historical", "Historical"⟩],
        category := some ⟨7, "Horses"⟩, explorerTemplate := some "e",
        gatekeeperTemplate := some "g", candidates := [⟨"Farriery", "historical", ["iron"]⟩],
        embedOf := fun _ => [(1 : Rat)],
        matchesOf := fun _ _ _ => [⟨"The history of horseshoes", (91 : Rat) / 100⟩],
        gkResponse := fun _ _ => .ok "yes", newTopicId := fun n => n + 100 }
      ⟨7, "Horses"⟩ initState ⟨"Farriery", "historical", ["iron"]⟩
      ⟨1, "historical", "Historical"⟩ ⟨"The history of horseshoes", (91 : Rat) / 100⟩ []
      (by decide) (by decide) (by decide)).1 rfl
  refine ⟨⟨by decide, by decide, by decide⟩, ?_, ?_, ?_⟩
  · rw [h.1]
  · rw [h.2]
    rfl
  · rw [h.2]
    rfl

theorem processCandidate_novel_eq (cfg : RunCfg) (env : TopicEnv) (cat : Category)
    (s : RunState) (c : TopicCandidate) (lens : Lens)
    (hq : s.approvedCount < cfg.dailyTopicQuota)
    (hl : find_lens env.lenses c.lensCode = some lens)
    (hnov : (check_novelty env cat.id
      (construct_semantic_signature cat.name c.concept lens c.keywords)
      cfg.similarityThreshold).1 = true) :
    processCandidate cfg env cat s c =
      (let signature := construct_semantic_signature cat.name c.concept lens c.keywords
      let res := validate_for_all_languages (gatekeeperInput env c) cfg.gkThreshold
      let topicId := if cfg.dryRun then 0 else env.newTopicId s.nextTopicIdx
      let insertEvents :=
        if cfg.dryRun then ([] : List DbEvent)
        else [DbEvent.insertTopic cat.id c.concept lens.id
          (check_novelty env cat.id signature cfg.similarityThreshold).2.2 signature]
      let s1 :=
        { s with
          events := s.events ++ noveltyEventsOf env cat.id signature ++ insertEvents ++
            (env.languages.take res.2.2).map (fun l => DbEvent.llmGatekeeper l.id)
          nextTopicIdx := if cfg.dryRun then s.nextTopicIdx else s.nextTopicIdx + 1
          rejectedGatekeeper := s.rejectedGatekeeper +
            (min env.languages.length (res.1.length + cfg.gkThreshold) - res.1.length) }
      if res.1.isEmpty then s1
      else
        { s1 with
          approvedCount := s1.approvedCount + 1
          queueItems := s1.queueItems ++ res.1.map (fun l => (topicId, l.id)) }) := by
  rw [processCandidate_some_lens cfg env cat s c lens (Nat.not_le.mpr hq) hl]
  show (if !(check_novelty env cat.id
      (construct_semantic_signature cat.name c.concept lens c.keywords)
      cfg.similarityThreshold).1 then _ else _) = _
  rw [hnov]
  rw [if_neg (by decide : ¬((!true) = true))]

/-! ## Event-filter helpers (for C7) -/

theorem noveltyEventsOf_filter_mut (env : TopicEnv) (categoryId : Nat) (sig : String) :
    (noveltyEventsOf env categoryId sig).filter is_mutation = [] := by
  unfold noveltyEventsOf
  by_cases hi : (env.embedOf sig).isEmpty = true
  · rw [if_pos hi]; rfl
  · rw [if_neg hi]; rfl

theorem noveltyEventsOf_filter_nonmut (env : TopicEnv) (categoryId : Nat) (sig : String) :
    (noveltyEventsOf env categoryId sig).filter (fun e => !is_mutation e) =
      noveltyEventsOf env categoryId sig := by
  unfold noveltyEventsOf
  by_cases hi : (env.embedOf sig).isEmpty = true
  · rw [if_pos hi]; rfl
  · rw [if_neg hi]; rfl

theorem gkEvents_filter_mut (ls : List Language) :
    ((ls.map (fun l => DbEvent.llmGatekeeper l.id)).filter is_mutation) = [] := by
  induction ls with
  | nil => rfl
  | cons a as ih => simp only [List.map_cons, List.filter_cons]; rw [ih]; rfl

theorem gkEvents_filter_nonmut (ls : List Language) :
    ((ls.map (fun l => DbEvent.llmGatekeeper l.id)).filter (fun e => !is_mutation e)) =
      ls.map (fun l => DbEvent.llmGatekeeper l.id) := by
  induction ls with
  | nil => rfl
  | cons a as ih => simp only [List.map_cons, List.filter_cons]; rw [ih]; rfl

theorem insertTopic_filter_nonmut (a : Nat) (b : String) (c : Nat) (d : List Rat)
    (e : String) :
    (List.filter (fun ev => !is_mutation ev) [DbEvent.insertTopic a b c d e]) = [] := rfl

theorem processCandidate_dry_filter_mut (cfg : RunCfg) (env : TopicEnv) (cat : Category)
    (s : RunState) (c : TopicCandidate) :
    (processCandidate {cfg with dryRun := true} env cat s c).events.filter is_mutation =
      s.events.filter is_mutation := by
  by_cases hq : cfg.dailyTopicQuota ≤ s.approvedCount
  · rw [processCandidate_stop {cfg with dryRun := true} env cat s c hq]
  · cases hl : find_lens env.lenses c.lensCode with
    | none => rw [processCandidate_no_lens {cfg with dryRun := true} env cat s c hq hl]
    | some lens =>
      by_cases hnov : (check_novelty env cat.id
          (construct_semantic_signature cat.name c.concept lens c.keywords)
          ({cfg with dryRun := true}).similarityThreshold).1 = true
      · rw [processCandidate_novel_eq {cfg with dryRun := true} env cat s c lens
          (Nat.not_le.mp hq) hl hnov]
        by_cases happ : (validate_for_all_languages (gatekeeperInput env c)
            ({cfg with dryRun := true}).gkThreshold).1.isEmpty = true
        · rw [if_pos happ]
          show (s.events ++ noveltyEventsOf env cat.id _ ++
            (if ({cfg with dryRun := true}).dryRun then _ else _) ++ _).filter is_mutation = _
          rw [if_pos rfl]
          simp only [List.filter_append, noveltyEventsOf_filter_mut, gkEvents_filter_mut,
            List.append_nil, List.filter_nil]
        · rw [if_neg happ]
          show (s.events ++ noveltyEventsOf env cat.id _ ++
            (if ({cfg with dryRun := true}).dryRun then _ else _) ++ _).filter is_mutation = _
          rw [if_pos rfl]
          simp only [List.filter_append, noveltyEventsOf_filter_mut, gkEvents_filter_mut,
            List.append_nil, List.filter_nil]
      · have hnov' : (check_novelty env cat.id
            (construct_semantic_signature cat.name c.concept lens c.keywords)
            ({cfg with dryRun := true}).similarityThreshold).1 = false := by
          revert hnov
          cases (check_novelty env cat.id
            (construct_semantic_signature cat.name c.concept lens c.keywords)
            ({cfg with dryRun := true}).similarityThreshold).1 <;> simp
        rw [processCandidate_simrej {cfg with dryRun := true} env cat s c lens
          (Nat.not_le.mp hq) hl hnov']
        simp only [List.filter_append, noveltyEventsOf_filter_mut, List.append_nil]

theorem processCandidate_sim (cfg : RunCfg) (env : TopicEnv) (cat : Category)
    (c : TopicCandidate) (sd sw : RunState)
    (hac : sd.approvedCount = sw.approvedCount)
    (hev : sd.events = sw.events.filter (fun e => !is_mutation e)) :
    (processCandidate {cfg with dryRun := true} env cat sd c).approvedCount =
      (processCandidate {cfg with dryRun := false} env cat sw c).approvedCount ∧
    (processCandidate {cfg with dryRun := true} env cat sd c).events =
      (processCandidate {cfg with dryRun := false} env cat sw c).events.filter
        (fun e => !is_mutation e) := by
  by_cases hq : cfg.dailyTopicQuota ≤ sd.approvedCount
  · rw [processCandidate_stop {cfg with dryRun := true} env cat sd c hq,
      processCandidate_stop {cfg with dryRun := false} env cat sw c (hac ▸ hq)]
    exact ⟨hac, hev⟩
  · have hq2 : ¬(cfg.dailyTopicQuota ≤ sw.approvedCount) := hac ▸ hq
    cases hl : find_lens env.lenses c.lensCode with
    | none =>
      rw [processCandidate_no_lens {cfg with dryRun := true} env cat sd c hq hl,
        processCandidate_no_lens {cfg with dryRun := false} env cat sw c hq2 hl]
      exact ⟨hac, hev⟩
    | some lens =>
      by_cases hnov : (check_novelty env cat.id
          (construct_semantic_signature cat.name c.concept lens c.keywords)
          cfg.similarityThreshold).1 = true
      · rw [processCandidate_novel_eq {cfg with dryRun := true} env cat sd c lens
          (Nat.not_le.mp hq) hl hnov,
          processCandidate_novel_eq {cfg with dryRun := false} env cat sw c lens
            (Nat.not_le.mp hq2) hl hnov]
        by_cases happ : (validate_for_all_languages (gatekeeperInput env c)
            cfg.gkThreshold).1.isEmpty = true
        · rw [if_pos happ, if_pos happ]
          constructor
          · exact hac
          · show sd.events ++ noveltyEventsOf env cat.id _ ++
              (if ({cfg with dryRun := true}).dryRun then _ else _) ++ _ =
              (sw.events ++ noveltyEventsOf env cat.id _ ++
                (if ({cfg with dryRun := false}).dryRun then _ else _) ++ _).filter
                (fun e => !is_mutation e)
            rw [if_pos rfl, if_neg (by decide : ¬(false = true))]
            simp only [List.filter_append, noveltyEventsOf_filter_nonmut,
              gkEvents_filter_nonmut, insertTopic_filter_nonmut, List.append_nil, hev]
        · rw [if_neg happ, if_neg happ]
          constructor
          · show _ + 1 = _ + 1
            rw [hac]
          · show sd.events ++ noveltyEventsOf env cat.id _ ++
              (if ({cfg with dryRun := true}).dryRun then _ else _) ++ _ =
              (sw.events ++ noveltyEventsOf env cat.id _ ++
                (if ({cfg with dryRun := false}).dryRun then _ else _) ++ _).filter
                (fun e => !is_mutation e)
            rw [if_pos rfl, if_neg (by decide : ¬(false = true))]
            simp only [List.filter_append, noveltyEventsOf_filter_nonmut,
              gkEvents_filter_nonmut, insertTopic_filter_nonmut, List.append_nil, hev]
      · have hnov' : (check_novelty env cat.id
            (construct_semantic_signature cat.name c.concept lens c.keywords)
            cfg.similarityThreshold).1 = false := by
          revert hnov
          cases (check_novelty env cat.id
            (construct_semantic_signature cat.name c.concept lens c.keywords)
            cfg.similarityThreshold).1 <;> simp
        rw [processCandidate_simrej {cfg with dryRun := true} env cat sd c lens
          (Nat.not_le.mp hq) hl hnov',
          processCandidate_simrej {cfg with dryRun := false} env cat sw c lens
            (Nat.not_le.mp hq2) hl hnov']
        constructor
        · exact hac
        · show sd.events ++ _ = (sw.events ++ _).filter (fun e => !is_mutation e)
          rw [List.filter_append, noveltyEventsOf_filter_nonmut, hev]

theorem foldl_dry_filter_mut (cfg : RunCfg) (env : TopicEnv) (cat : Category) :
    ∀ (cs : List TopicCandidate) (s : RunState),
      ((cs.foldl (processCandidate {cfg with dryRun := true} env cat) s).events.filter
        is_mutation) = s.events.filter is_mutation := by
  intro cs
  induction cs with
  | nil => intro s; rfl
  | cons c rest ih =>
    intro s
    rw [List.foldl_cons, ih, processCandidate_dry_filter_mut]

theorem foldl_sim (cfg : RunCfg) (env : TopicEnv) (cat : Category) :
    ∀ (cs : List TopicCandidate) (sd sw : RunState),
      sd.approvedCount = sw.approvedCount →
      sd.events = sw.events.filter (fun e => !is_mutation e) →
      ((cs.foldl (processCandidate {cfg with dryRun := true} env cat) sd).approvedCount =
        (cs.foldl (processCandidate {cfg with dryRun := false} env cat) sw).approvedCount ∧
      (cs.foldl (processCandidate {cfg with dryRun := true} env cat) sd).events =
        (cs.foldl (processCandidate {cfg with dryRun := false} env cat) sw).events.filter
          (fun e => !is_mutation e)) := by
  intro cs
  induction cs with
  | nil => intro sd sw hac hev; exact ⟨hac, hev⟩
  | cons c rest ih =>
    intro sd sw hac hev
    rw [List.foldl_cons, List.foldl_cons]
    obtain ⟨h1, h2⟩ := processCandidate_sim cfg env cat c sd sw hac hev
    exact ih _ _ h1 h2

theorem and_not_true_eq_false (x : Bool) : (x && !true) = false := by
  cases x <;> rfl

theorem ite_queueBatch_filter_nonmut (c : Bool) (items : List (Nat × Nat)) :
    (if c = true then [DbEvent.insertQueueBatch items] else ([] : List DbEvent)).filter
      (fun e => !is_mutation e) = [] := by
  cases c
  · rw [if_neg (by decide : ¬(false = true))]; rfl
  · rw [if_pos rfl]; rfl

theorem updateCategory_filter_nonmut (catId : Nat) :
    (List.filter (fun e => !is_mutation e) [DbEvent.updateCategoryUsage catId]) = [] := rfl

theorem runMetrics_filter_nonmut :
    (List.filter (fun e => !is_mutation e) [DbEvent.insertRunMetrics]) = [] := rfl

theorem ite_increment_filter_nonmut (c : Prop) [Decidable c] (catId n : Nat) :
    ((if c then [DbEvent.incrementCategoryTopics catId n] else ([] : List DbEvent)).filter
      (fun e => !is_mutation e)) = [] := by
  by_cases h : c
  · rw [if_pos h]; rfl
  · rw [if_neg h]; rfl

theorem catEvents_filter_nonmut (catId : Nat) (cnt : Nat) :
    (([DbEvent.updateCategoryUsage catId] ++
      (if 0 < cnt then [DbEvent.incrementCategoryTopics catId cnt] else [])).filter
      (fun e => !is_mutation e)) = [] := by
  by_cases h : 0 < cnt
  · rw [if_pos h]; rfl
  · rw [if_neg h]; rfl

theorem run_dry_filter_mut (cfg : RunCfg) (env : TopicEnv) :
    (run_topic_generation {cfg with dryRun := true} env).2.filter is_mutation = [] := by
  unfold run_topic_generation
  by_cases h1 : env.languages.isEmpty = true
  · rw [if_pos h1]; rfl
  · rw [if_neg h1]
    by_cases h2 : env.lenses.isEmpty = true
    · rw [if_pos h2]; rfl
    · rw [if_neg h2]
      cases hcat : env.category with
      | none => rfl
      | some cat =>
        cases hexp : env.explorerTemplate with
        | none => rfl
        | some te =>
          cases hgk : env.gatekeeperTemplate with
          | none => rfl
          | some tg =>
            by_cases hcand : env.candidates.isEmpty = true
            · dsimp only
              rw [if_pos hcand]
              rfl
            · dsimp only
              rw [if_neg hcand]
              simp only [List.filter_append, List.append_nil, List.filter_nil]
              rw [foldl_dry_filter_mut cfg env cat env.candidates initState]
              rw [and_not_true_eq_false, if_neg (by decide : ¬(false = true))]
              simp only [if_true]
              rfl

theorem run_wet_filter_nonmut (cfg : RunCfg) (env : TopicEnv) :
    (run_topic_generation {cfg with dryRun := false} env).2.filter
        (fun e => !is_mutation e) =
      (run_topic_generation {cfg with dryRun := true} env).2 := by
  unfold run_topic_generation
  by_cases h1 : env.languages.isEmpty = true
  · simp only [if_pos h1]; rfl
  · simp only [if_neg h1]
    by_cases h2 : env.lenses.isEmpty = true
    · simp only [if_pos h2]; rfl
    · simp only [if_neg h2]
      cases hcat : env.category with
      | none => rfl
      | some cat =>
        cases hexp : env.explorerTemplate with
        | none => rfl
        | some te =>
          cases hgk : env.gatekeeperTemplate with
          | none => rfl
          | some tg =>
            by_cases hcand : env.candidates.isEmpty = true
            · dsimp only
              rw [if_pos hcand, if_pos hcand]
              rfl
            · dsimp only
              rw [if_neg hcand, if_neg hcand]
              obtain ⟨-, h⟩ := foldl_sim cfg env cat env.candidates initState initState rfl rfl
              simp only [List.filter_append, ite_queueBatch_filter_nonmut,
                and_not_true_eq_false, Bool.false_eq_true, if_false, if_true,
                eq_self_iff_true, updateCategory_filter_nonmut, runMetrics_filter_nonmut,
                ite_increment_filter_nonmut, List.append_nil, List.filter_nil, ← h]
              rfl

/-! ## No topic is ever deleted (for C7 and C10) -/

theorem noveltyEventsOf_no_delete (env : TopicEnv) (catId : Nat) (sig : String)
    (t : Nat) : DbEvent.deleteTopic t ∉ noveltyEventsOf env catId sig := by
  unfold noveltyEventsOf
  by_cases hi : (env.embedOf sig).isEmpty = true
  · rw [if_pos hi]; simp
  · rw [if_neg hi]; simp

theorem ite_list_no_delete (c : Prop) [Decidable c] (xs ys : List DbEvent) (t : Nat)
    (hx : DbEvent.deleteTopic t ∉ xs) (hy : DbEvent.deleteTopic t ∉ ys) :
    DbEvent.deleteTopic t ∉ (if c then xs else ys) := by
  by_cases h : c
  · rw [if_pos h]; exact hx
  · rw [if_neg h]; exact hy

theorem gkEvents_no_delete (ls : List Language) (t : Nat) :
    DbEvent.deleteTopic t ∉ ls.map (fun l => DbEvent.llmGatekeeper l.id) := by
  intro hmem
  obtain ⟨l, _, he⟩ := List.mem_map.mp hmem
  exact DbEvent.noConfusion he

theorem processCandidate_no_delete (cfg : RunCfg) (env : TopicEnv) (cat : Category)
    (s : RunState) (c : TopicCandidate) (t : Nat)
    (h : DbEvent.deleteTopic t ∉ s.events) :
    DbEvent.deleteTopic t ∉ (processCandidate cfg env cat s c).events := by
  by_cases hq : cfg.dailyTopicQuota ≤ s.approvedCount
  · rw [processCandidate_stop cfg env cat s c hq]; exact h
  · cases hl : find_lens env.lenses c.lensCode with
    | none => rw [processCandidate_no_lens cfg env cat s c hq hl]; exact h
    | some lens =>
      by_cases hnov : (check_novelty env cat.id
          (construct_semantic_signature cat.name c.concept lens c.keywords)
          cfg.similarityThreshold).1 = true
      · rw [processCandidate_novel_eq cfg env cat s c lens (Nat.not_le.mp hq) hl hnov]
        have hbody : DbEvent.deleteTopic t ∉
            s.events ++ noveltyEventsOf env cat.id
              (construct_semantic_signature cat.name c.concept lens c.keywords) ++
            (if cfg.dryRun then ([] : List DbEvent)
              else [DbEvent.insertTopic cat.id c.concept lens.id
                (check_novelty env cat.id
                  (construct_semantic_signature cat.name c.concept lens c.keywords)
                  cfg.similarityThreshold).2.2
                (construct_semantic_signature cat.name c.concept lens c.keywords)]) ++
            (env.languages.take (validate_for_all_languages (gatekeeperInput env c)
              cfg.gkThreshold).2.2).map (fun l => DbEvent.llmGatekeeper l.id) := by
          intro hmem
          rcases List.mem_append.mp hmem with hmem1 | hmem2
          · rcases List.mem_append.mp hmem1 with hmem3 | hmem4
            · rcases List.mem_append.mp hmem3 with hmem5 | hmem6
              · exact h hmem5
              · exact noveltyEventsOf_no_delete env cat.id _ t hmem6
            · exact ite_list_no_delete _ _ _ t (by simp) (by simp) hmem4
          · exact gkEvents_no_delete _ t hmem2
        by_cases happ : (validate_for_all_languages (gatekeeperInput env c)
            cfg.gkThreshold).1.isEmpty = true
        · rw [if_pos happ]; exact hbody
        · rw [if_neg happ]; exact hbody
      · have hnov' : (check_novelty env cat.id
            (construct_semantic_signature cat.name c.concept lens c.keywords)
            cfg.similarityThreshold).1 = false := by
          revert hnov
          cases (check_novelty env cat.id
            (construct_semantic_signature cat.name c.concept lens c.keywords)
            cfg.similarityThreshold).1 <;> simp
        rw [processCandidate_simrej cfg env cat s c lens (Nat.not_le.mp hq) hl hnov']
        intro hmem
        rcases List.mem_append.mp hmem with hmem1 | hmem2
        · exact h hmem1
        · exact noveltyEventsOf_no_delete env cat.id _ t hmem2

theorem foldl_no_delete (cfg : RunCfg) (env : TopicEnv) (cat : Category) (t : Nat) :
    ∀ (cs : List TopicCandidate) (s : RunState),
      DbEvent.deleteTopic t ∉ s.events →
      DbEvent.deleteTopic t ∉
        (cs.foldl (processCandidate cfg env cat) s).events := by
  intro cs
  induction cs with
  | nil => intro s h; exact h
  | cons c rest ih =>
    intro s h
    rw [List.foldl_cons]
    exact ih _ (processCandidate_no_delete cfg env cat s c t h)

theorem fin_no_delete (cfg : RunCfg) (t : Nat) :
    DbEvent.deleteTopic t ∉
      (if cfg.dryRun then ([] : List DbEvent) else [DbEvent.insertRunMetrics]) :=
  ite_list_no_delete _ _ _ t (by simp) (by simp)

theorem run_no_delete (cfg : RunCfg) (env : TopicEnv) (t : Nat) :
    DbEvent.deleteTopic t ∉ (run_topic_generation cfg env).2 := by
  unfold run_topic_generation
  by_cases h1 : env.languages.isEmpty = true
  · rw [if_pos h1]
    intro hmem
    rcases List.mem_append.mp hmem with hmem1 | hmem2
    · simp at hmem1
    · exact fin_no_delete cfg t hmem2
  · rw [if_neg h1]
    by_cases h2 : env.lenses.isEmpty = true
    · rw [if_pos h2]
      intro hmem
      rcases List.mem_append.mp hmem with hmem1 | hmem2
      · simp at hmem1
      · exact fin_no_delete cfg t hmem2
    · rw [if_neg h2]
      cases hcat : env.category with
      | none =>
        intro hmem
        rcases List.mem_append.mp hmem with hmem1 | hmem2
        · simp at hmem1
        · exact fin_no_delete cfg t hmem2
      | some cat =>
        cases hexp : env.explorerTemplate with
        | none =>
          intro hmem
          rcases List.mem_append.mp hmem with hmem1 | hmem2
          · simp at hmem1
          · exact fin_no_delete cfg t hmem2
        | some te =>
          cases hgk : env.gatekeeperTemplate with
          | none =>
            intro hmem
            rcases List.mem_append.mp hmem with hmem1 | hmem2
            · simp at hmem1
            · exact fin_no_delete cfg t hmem2
          | some tg =>
            by_cases hcand : env.candidates.isEmpty = true
            · dsimp only
              rw [if_pos hcand]
              intro hmem
              rcases List.mem_append.mp hmem with hmem1 | hmem2
              · simp at hmem1
              · exact fin_no_delete cfg t hmem2
            · dsimp only
              rw [if_neg hcand]
              intro hmem
              rcases List.mem_append.mp hmem with hmem1 | hmem2
              swap
              · exact fin_no_delete cfg t hmem2
              rcases List.mem_append.mp hmem1 with hmem3 | hmem4
              swap
              · revert hmem4
                apply ite_list_no_delete
                · simp
                · intro hm
                  rcases List.mem_append.mp hm with hm1 | hm2
                  · simp at hm1
                  · revert hm2
                    apply ite_list_no_delete <;> simp
              rcases List.mem_append.mp hmem3 with hmem5 | hmem6
              swap
              · revert hmem6
                apply ite_list_no_delete <;> simp
              rcases List.mem_append.mp hmem5 with hmem7 | hmem8
              · simp at hmem7
              · exact foldl_no_delete cfg env cat t env.candidates initState
                  (List.not_mem_nil _) hmem8

/-! ## Claim C7 (dry run performs no mutations) -/

/-- Claim C7: with the dry-run flag set, a topic-orchestrator run performs
none of the mutating database calls, while performing exactly the reads
and language-model/embedding calls of the corresponding real run (the
dry trace is precisely the non-mutating part of the wet trace on the same
inputs); and every mutation a run performs is one of the spec's four
kinds: topic insert, queue batch insert, category last-used/counter
update, run-metrics insert. -/
theorem c7_dry_run_no_mutations (cfg : RunCfg) (env : TopicEnv) :
    ((run_topic_generation {cfg with dryRun := true} env).2.filter is_mutation = []) ∧
    ((run_topic_generation {cfg with dryRun := false} env).2.filter
        (fun e => !is_mutation e) =
      (run_topic_generation {cfg with dryRun := true} env).2) ∧
    (∀ e ∈ (run_topic_generation cfg env).2, is_mutation e = true →
      is_spec_mutation_kind e = true) := by
  refine ⟨run_dry_filter_mut cfg env, run_wet_filter_nonmut cfg env, ?_⟩
  intro e he hm
  cases e with
  | readLanguages => exact Bool.noConfusion hm
  | readLenses => exact Bool.noConfusion hm
  | readCategory => exact Bool.noConfusion hm
  | readPrompt a => exact Bool.noConfusion hm
  | llmExplorer => exact Bool.noConfusion hm
  | embedCall a => exact Bool.noConfusion hm
  | searchSimilar a => exact Bool.noConfusion hm
  | llmGatekeeper a => exact Bool.noConfusion hm
  | insertTopic a b c d f => rfl
  | insertQueueBatch q => rfl
  | updateCategoryUsage a => rfl
  | incrementCategoryTopics a n => rfl
  | insertRunMetrics => rfl
  | deleteTopic t => exact absurd he (run_no_delete cfg env t)

/-! ## Claim C10 (topics inserted before gatekeeping are retained) -/

/-- Claim C10: in a non-dry run, a candidate that passes the novelty check
has its topic row inserted *before* the gatekeeper's language-model calls
(the insert event precedes every gatekeeper event of that candidate); if
zero languages approve it, the topic row is retained (no run ever emits a
topic deletion — the database client has no such operation), no queue
items are created for it and it does not count toward the daily
approved-topic quota; consequently a run can insert more topic rows than
it approves. -/
theorem c10_unapproved_topic_retained (cfg : RunCfg) (env : TopicEnv)
    (cat : Category) (s : RunState) (c : TopicCandidate) (lens : Lens)
    (hdry : cfg.dryRun = false)
    (hq : s.approvedCount < cfg.dailyTopicQuota)
    (hl : find_lens env.lenses c.lensCode = some lens)
    (hemb : env.embedOf (construct_semantic_signature cat.name c.concept lens
      c.keywords) ≠ [])
    (hmatch : env.matchesOf cat.id
      (env.embedOf (construct_semantic_signature cat.name c.concept lens c.keywords))
      cfg.similarityThreshold = [])
    (happ : (validate_for_all_languages (gatekeeperInput env c) cfg.gkThreshold).1 = []) :
    ((processCandidate cfg env cat s c).events =
      s.events ++
        [DbEvent.embedCall
            (construct_semantic_signature cat.name c.concept lens c.keywords),
          DbEvent.searchSimilar cat.id,
          DbEvent.insertTopic cat.id c.concept lens.id
            (env.embedOf (construct_semantic_signature cat.name c.concept lens c.keywords))
            (construct_semantic_signature cat.name c.concept lens c.keywords)] ++
        (env.languages.take (validate_for_all_languages (gatekeeperInput env c)
          cfg.gkThreshold).2.2).map (fun l => DbEvent.llmGatekeeper l.id) ∧
      (processCandidate cfg env cat s c).queueItems = s.queueItems ∧
      (processCandidate cfg env cat s c).approvedCount = s.approvedCount) ∧
    (∀ t, DbEvent.deleteTopic t ∉ (run_topic_generation cfg env).2) ∧
    (∃ (cfg2 : RunCfg) (env2 : TopicEnv) (s2 : RunState),
      (run_topic_generation cfg2 env2).1 = some s2 ∧
      s2.approvedCount < countInsertTopics (run_topic_generation cfg2 env2).2) := by
  refine ⟨?_, fun t => run_no_delete cfg env t, ?_⟩
  · have hcn := check_novelty_novel env cat.id
      (construct_semantic_signature cat.name c.concept lens c.keywords)
      cfg.similarityThreshold hemb hmatch
    have hnov1 : (check_novelty env cat.id
        (construct_semantic_signature cat.name c.concept lens c.keywords)
        cfg.similarityThreshold).1 = true := by rw [hcn]
    have happ2 : (validate_for_all_languages (gatekeeperInput env c)
        cfg.gkThreshold).1.isEmpty = true := by rw [happ]; rfl
    have key := processCandidate_novel_eq cfg env cat s c lens hq hl hnov1
    rw [key]
    dsimp only
    rw [if_pos happ2, hcn, noveltyEventsOf_of_ne env cat.id _ hemb, hdry]
    rw [if_neg (by decide : ¬(false = true))]
    refine ⟨?_, rfl, rfl⟩
    simp only [List.append_assoc]
    rfl
  · refine ⟨⟨false, 5, (85 : Rat) / 100, 1⟩,
      { languages := [⟨1, "zh", "中文"⟩], lenses := [⟨1, "historical", "Historical"⟩],
        category := some ⟨7, "Cats"⟩, explorerTemplate := some "e",
        gatekeeperTemplate := some "g",
        candidates := [⟨"A cat topic", "historical", ["cat"]⟩],
        embedOf := fun _ => [(1 : Rat)],
        matchesOf := fun _ _ _ => [],
        gkResponse := fun _ _ => .ok "no", newTopicId := fun n => n + 100 },
      _, rfl, ?_⟩
    decide

/-- Claim C10, witness: a novel candidate rejected by the single active
language (threshold 1) leaves the queue items and the approved count
unchanged even though its topic row was inserted. -/
theorem c10_unapproved_topic_retained_witness :
    ((0 : Nat) < 5 ∧
      (validate_for_all_languages
        (gatekeeperInput
          { languages := [⟨1, "zh", "中文"⟩], lenses := [⟨1, "historical", "Historical"⟩],
            category := some ⟨7, "Cats"⟩, explorerTemplate := some "e",
            gatekeeperTemplate := some "g",
            candidates := [⟨"A cat topic", "historical", ["cat"]⟩],
            embedOf := fun _ => [(1 : Rat)], matchesOf := fun _ _ _ => [],
            gkResponse := fun _ _ => .ok "no", newTopicId := fun n => n + 100 }
          ⟨"A cat topic", "historical", ["cat"]⟩) 1).1 = []) ∧
    (processCandidate ⟨false, 5, (85 : Rat) / 100, 1⟩
      { languages := [⟨1, "zh", "中文"⟩], lenses := [⟨1, "historical", "Historical"⟩],
        category := some ⟨7, "Cats"⟩, explorerTemplate := some "e",
        gatekeeperTemplate := some "g",
        candidates := [⟨"A cat topic", "historical", ["cat"]⟩],
        embedOf := fun _ => [(1 : Rat)], matchesOf := fun _ _ _ => [],
        gkResponse := fun _ _ => .ok "no", newTopicId := fun n => n + 100 }
      ⟨7, "Cats"⟩ initState ⟨"A cat topic", "historical", ["cat"]⟩).queueItems =
      initState.queueItems := by
  refine ⟨⟨by decide, by decide⟩, ?_⟩
  exact (c10_unapproved_topic_retained ⟨false, 5, (85 : Rat) / 100, 1⟩
    { languages := [⟨1, "zh", "中文"⟩], lenses := [⟨1, "historical", "Historical"⟩],
      category := some ⟨7, "Cats"⟩, explorerTemplate := some "e",
      gatekeeperTemplate := some "g",
      candidates := [⟨"A cat topic", "historical", ["cat"]⟩],
      embedOf := fun _ => [(1 : Rat)], matchesOf := fun _ _ _ => [],
      gkResponse := fun _ _ => .ok "no", newTopicId := fun n => n + 100 }
    ⟨7, "Cats"⟩ initState ⟨"A cat topic", "historical", ["cat"]⟩
    ⟨1, "historical", "Historical"⟩ rfl (by decide) (by decide) (by decide)
    (by decide) (by decide)).1.2.1

end LinguaLoop
